import Mathlib

/-!
# express-project-generator: the generation pipeline

A shallow embedding of `src/index.js` (the orchestrator and its progress
callback) and `src/bin/createFiles.js` (the templates and the file emitter).

Asynchronous code is sequential here: `await` suspends the only thread of
control, so a program is a function from the world before it to its outcome
and the world after it.  The world holds the two counters the stdin handler
closes over and the trace of everything observable that has happened so far.
-/

namespace ExpressGen

/-! ## Values, events and the world -/

/-- A thrown JavaScript value, identified by the text its string conversion yields. -/
structure JsError where
  rendered : String
deriving DecidableEq, Repr

/-- An argument a caller may leave out: `none` is `undefined`, `some s` the string `s`. -/
abbrev JsArg := Option String

/-- The observable actions of a run, in the order they happen. -/
inductive Event where
  /-- A call `createFile(path, content)` and how it ended (`none`: the promise resolved). -/
  | createFile (path content : String) (failure : Option JsError)
  /-- A line printed with `console.log`. -/
  | consoleLog (text : String)
  /-- A line printed with `console.error`. -/
  | consoleError (text : String)
  /-- The call `process.stdout.write` of the marker `[percentage%] `. -/
  | progressMarker (percentage : ℤ)
  /-- The call `process.exit(code)`. -/
  | processExit (code : ℕ)
  /-- One unit of work of a stage whose code lies outside `src/`. -/
  | stageWork (label : String)
  /-- An invocation of a callback that does nothing but record that it ran. -/
  | callbackRan
deriving DecidableEq, Repr

/-- The text an event puts on the terminal, if any. -/
def Event.text : Event → Option String
  | .consoleLog t => some (t ++ "\n")
  | .consoleError t => some (t ++ "\n")
  | .progressMarker p => some ("[" ++ toString p ++ "%] ")
  | _ => none

/-- The state of a run: `completedSteps` and `lastPercentage` are the variables of the
stdin handler that `updateProgress` closes over, `trace` lists the events so far. -/
structure World where
  completedSteps : ℕ
  lastPercentage : ℤ
  trace : List Event
deriving DecidableEq, Repr

/-- Append events to the trace. -/
def World.emit (w : World) (es : List Event) : World :=
  { w with trace := w.trace ++ es }

/-- An asynchronous JavaScript computation: it ends normally with a value or throws
(rejects), and in both cases leaves a world behind. -/
def Js (α : Type) : Type := World → Except JsError α × World

/-- Sequencing: what `await` followed by the rest of the function body does. -/
def Js.bind {α β : Type} (m : Js α) (f : α → Js β) : Js β := fun w =>
  match m w with
  | (.ok a, w1) => f a w1
  | (.error e, w1) => (.error e, w1)

/-- The statement `try { body } catch (error) { handler }`. -/
def Js.tryCatch {α : Type} (body : Js α) (handler : JsError → Js α) : Js α := fun w =>
  match body w with
  | (.ok a, w1) => (.ok a, w1)
  | (.error e, w1) => handler e w1

instance : Monad Js where
  pure a := fun w => (.ok a, w)
  bind := Js.bind

instance : MonadExcept JsError Js where
  throw e := fun w => (.error e, w)
  tryCatch := Js.tryCatch

/-- Perform one observable action. -/
def perform (e : Event) : Js Unit := fun w => (.ok (), w.emit [e])

namespace console

/-- `console.log(text)`. -/
def log (text : String) : Js Unit := perform (.consoleLog text)

/-- `console.error(text)`. -/
def error (text : String) : Js Unit := perform (.consoleError text)

end console

namespace chalk

/-! Styling from the `chalk` package, at colour level 0: the text is left as it is. -/

/-- `chalk.blue(text)`. -/
def blue (text : String) : String := text

/-- `chalk.green(text)`. -/
def green (text : String) : String := text

/-- `chalk.green.bold(text)`. -/
def greenBold (text : String) : String := text

/-- `chalk.red(text)`. -/
def red (text : String) : String := text

end chalk

/-! ## index.js: the progress callback -/

namespace Math

/-- `Math.round(x)`: the integer nearest to `x`, a tie going up, that is `⌊x + 1/2⌋`. -/
def round (x : ℚ) : ℤ := ⌊x + 1 / 2⌋

end Math

/-- `const TOTAL_STEPS = 2+8+2;` -/
def TOTAL_STEPS : ℕ := 2 + 8 + 2

/-- The expression `Math.round((completedSteps / TOTAL_STEPS) * 100)`, in exact arithmetic:
the counter is a natural number and the quotient a rational, where the source computes in
doubles.  The two give the same integer as long as `completedSteps ≤ maxExactCalls`
(`percentageOf_doubles`); for larger counters they can differ, and from `2^53` on the
source's counter no longer moves. -/
def percentageOf (completedSteps : ℕ) : ℤ :=
  Math.round (((completedSteps : ℚ) / (TOTAL_STEPS : ℚ)) * 100)

/-- A number of calls up to which the doubles of the source give the percentages of exact
arithmetic: the counter is exact, each of the two operations has a relative error of at most
`2^-53`, so the product is within `25 * 2^46 / 3 * 2^-52 < 1/6` of `25 * completedSteps / 3`,
which is never closer than `1/6` to a tie of `Math.round`. -/
def maxExactCalls : ℕ := 2 ^ 46

/-- The callback `updateProgress` of the stdin handler. -/
def updateProgress : Js Unit := fun w =>
  let completedSteps := w.completedSteps + 1
  let percentage := percentageOf completedSteps
  if percentage ≠ w.lastPercentage then
    (.ok (), { completedSteps := completedSteps
               lastPercentage := percentage
               trace := w.trace ++ [.progressMarker percentage] })
  else
    (.ok (), { w with completedSteps := completedSteps })

/-- Call a callback `n` times in a row. -/
def callTimes (callback : Js Unit) : ℕ → Js Unit
  | 0 => pure ()
  | n + 1 => do callTimes callback n; callback

/-- The handler's variables right after `let completedSteps = 0; let lastPercentage = -1;`,
nothing having happened yet. -/
def World.start : World :=
  { completedSteps := 0, lastPercentage := -1, trace := [] }

/-- The percentages that a list of events writes to the terminal, oldest first. -/
def percentagesIn (es : List Event) : List ℤ :=
  es.filterMap fun
    | .progressMarker p => some p
    | _ => none

/-- The percentages written to the terminal so far, oldest first. -/
def emitted (w : World) : List ℤ := percentagesIn w.trace

/-! ## createFiles.js: the templates -/

/-- The template `boilerplateServerCode(installJsonwebtoken, addDatabase)`: the text of
`server.js`.  The second parameter is not used by the template. -/
def boilerplateServerCode (installJsonwebtoken _addDatabase : JsArg) : String :=
  "\n" ++
  "const express = require('express');\n" ++
  "const cors = require('cors');\n" ++
  (if installJsonwebtoken = some "JWT" then "const jwt = require('jsonwebtoken');" else "") ++ "\n" ++
  "\n" ++
  "require('dotenv').config(); // Load environment variables from .env file\n" ++
  "\n" ++
  "const app = express(); // Create an Express.js app\n" ++
  "const PORT = process.env.PORT || 3000; // Set the port for the server\n" ++
  "\n" ++
  "// Middlewares\n" ++
  "app.use(cors()); // Enable CORS\n" ++
  "app.use(express.json()); // Parse JSON requests\n" ++
  "app.use(express.urlencoded(\x7b extended: true \x7d)); // Parse URL-encoded requests\n" ++
  "app.use(express.static('static')); // Serve static files from 'static' folder\n" ++
  "\n" ++
  "// Routes\n" ++
  "app.get('/', (req, res) => \x7b\n" ++
  "  res.json(\x7b message: 'Welcome to this new Express.js Project' \x7d);\n" ++
  "\x7d);\n" ++
  "\n" ++
  "// Error Handling Middleware\n" ++
  "app.use((err, req, res, next) => \x7b\n" ++
  "  console.error(err.stack);\n" ++
  "  res.status(500).json(\x7b error: 'Something went wrong!' \x7d);\n" ++
  "\x7d);\n" ++
  "\n" ++
  "// Start Server\n" ++
  "app.listen(PORT, () => \x7b\n" ++
  "  console.log(`Server is running on http://localhost:$\x7bPORT\x7d/`);\n" ++
  "\x7d);\n" ++
  "\n" ++
  "module.exports = app;"

/-- The constant `tsConfig`: the text of `tsconfig.json`. -/
def tsConfig : String :=
  "\x7b\n" ++
  "  \"compilerOptions\": \x7b\n" ++
  "    \"target\": \"ES2020\",\n" ++
  "    \"module\": \"CommonJS\",\n" ++
  "    \"outDir\": \"./dist\",\n" ++
  "    \"rootDir\": \"./src\",\n" ++
  "    \"strict\": true,\n" ++
  "    \"esModuleInterop\": true,\n" ++
  "    \"skipLibCheck\": true\n" ++
  "  \x7d\n" ++
  "\x7d"

/-- The template `tsBoilerplate(installJsonwebtoken)`: the text of `server.ts`. -/
def tsBoilerplate (installJsonwebtoken : JsArg) : String :=
  "import express from 'express';\n" ++
  "import cors from 'cors';\n" ++
  "import dotenv from 'dotenv';\n" ++
  (if installJsonwebtoken = some "JWT" then "import jwt from 'jsonwebtoken';" else "") ++ " \n" ++
  "\n" ++
  "\n" ++
  "dotenv.config();\n" ++
  "\n" ++
  "const app = express();\n" ++
  "const PORT = process.env.PORT || 3000;\n" ++
  "\n" ++
  "app.use(cors());\n" ++
  "app.use(express.json());\n" ++
  "app.use(express.urlencoded(\x7b extended: true \x7d));\n" ++
  "app.use(express.static('static'));\n" ++
  "\n" ++
  "app.get('/', (req, res) => \x7b\n" ++
  "  res.json(\x7b message: 'Welcome to this new Express.js Project' \x7d);\n" ++
  "\x7d);\n" ++
  "\n" ++
  "app.use((err: Error, req: express.Request, res: express.Response, next: express.NextFunction) => \x7b\n" ++
  "  console.error(err.stack);\n" ++
  "  res.status(500).json(\x7b error: 'Something went wrong!' \x7d);\n" ++
  "\x7d);\n" ++
  "\n" ++
  "app.listen(PORT, () => \x7b\n" ++
  "  console.log(`Server running on http://localhost:$\x7bPORT\x7d/`);\n" ++
  "\x7d);\n" ++
  "\n" ++
  "export default app;"

/-- The template `dbConfig(language)`: the text of `src/configs/db.js`. -/
def dbConfig (language : JsArg) : String :=
  "\n" ++
  (if language = some "TypeScript" then "import mongoose from 'mongoose'"
    else "const  mongoose = require('mongoose');") ++ "\n" ++
  "const connectDB = async () => \x7b\n" ++
  "    try \x7b\n" ++
  "        await mongoose.connect(process.env.MONGO_URI, \x7b\n" ++
  "            useNewUrlParser: true,\n" ++
  "            useUnifiedTopology: true\n" ++
  "        \x7d);\n" ++
  "        console.log('MongoDB connected successfully');\n" ++
  "    \x7d catch (error) \x7b\n" ++
  "        console.error('MongoDB connection error:', error);\n" ++
  "        process.exit(1);\n" ++
  "    \x7d\n" ++
  "\x7d;\n" ++
  "\n" ++
  "module.exports = connectDB;\n"

/-- The template `userModel(language)`: the text of `src/models/userModel.js`. -/
def userModel (language : JsArg) : String :=
  "\n" ++
  (if language = some "TypeScript" then "import mongoose from 'mongoose'"
    else "const  mongoose = require('mongoose');") ++ "\n" ++
  "\n" ++
  "const userSchema = new mongoose.Schema(\x7b\n" ++
  "    name: \x7b type: String, required: true \x7d,\n" ++
  "    email: \x7b type: String, required: true, unique: true \x7d,\n" ++
  "    password: \x7b type: String, required: true \x7d\n" ++
  "\x7d, \x7b timestamps: true \x7d);\n" ++
  "\n" ++
  "module.exports = mongoose.model('User', userSchema);\n"

/-! ## createFiles.js: the file emitter -/

/-- The file writer's behaviour in a run: whether its `n`-th call (counted from 0) fails,
given the path and the content it is called with; `none` means the write succeeds. -/
abbrev FileWriter := ℕ → String → String → Option JsError

/-- Whether an event is a call of the file writer. -/
def Event.isCreateFile : Event → Bool
  | .createFile _ _ _ => true
  | _ => false

/-- The number of calls of the file writer so far. -/
def writeCount (w : World) : ℕ := w.trace.countP Event.isCreateFile

/-- Modelled from the spec: `../utils/createFile` is not among the sources.  It is the File
Writer, which "given a path and string content, creates any missing parent directories and
writes the content, overwriting if present" and "fails with an I/O error on permission/disk
problems".  The call is recorded with its outcome; it throws when the writer fails. -/
def createFile (fs : FileWriter) (path content : String) : Js Unit := fun w =>
  match fs (writeCount w) path content with
  | none => (.ok (), w.emit [.createFile path content none])
  | some e => (.error e, w.emit [.createFile path content (some e)])

/-- The function `createFiles(projectName, progressCallback, language, installJsonwebtoken,
addDatabase)`. -/
def createFiles (fs : FileWriter) (projectName : String) (progressCallback : Js Unit)
    (language installJsonwebtoken addDatabase : JsArg) : Js Unit :=
  try
    let ext := if language = some "TypeScript" then "ts" else "js"
    let boilerplate :=
      if language = some "TypeScript" then tsBoilerplate installJsonwebtoken
      else boilerplateServerCode installJsonwebtoken addDatabase
    createFile fs (projectName ++ "/src/server." ++ ext) boilerplate
    console.log (chalk.green "Created server.js")
    progressCallback
    if language = some "TypeScript" then
      createFile fs (projectName ++ "/tsconfig.json") tsConfig
      console.log (chalk.green "Created tsconfig.json")
      progressCallback
    if addDatabase = some "MongoDB" then
      createFile fs (projectName ++ "/src/configs/db.js") (dbConfig language)
      console.log (chalk.green "Created db.js")
      progressCallback
      createFile fs (projectName ++ "/src/models/userModel.js") (userModel language)
      console.log (chalk.green "Created user.js")
      progressCallback
    createFile fs (projectName ++ "/readme.md") "# Project created using express-app-generator"
    console.log (chalk.green "Created readme.md")
    progressCallback
    console.log (chalk.green "Project generated successfully!")
  catch error =>
    console.error (chalk.red ("Error creating files: " ++ error.rendered))
    throw error

/-- A callback that only records that it was invoked. -/
def recordCall : Js Unit := perform .callbackRan

/-! ## index.js: the orchestrator -/

/-- One thing a stage outside `src/` does: a unit of its own work, or a call of the
progress callback it was handed. -/
inductive StageStep where
  | work (label : String)
  | tick
deriving DecidableEq, Repr

/-- Modelled from the spec: `./bin/initializer` and `./bin/createDirectories` are not among
the sources.  Each is a stage that performs units of work, "invokes `progressCallback`" as
they complete, and "fails with a filesystem error" or a process-spawn error, in which case
it "aborts the remaining steps and propagates to the caller".  A value of this type is what
such a stage does in one run, as far as its caller can tell: a sequence of units of work and
callback calls, after which its promise resolves (`none`) or rejects with an error. -/
structure Stage where
  steps : List StageStep
  failure : Option JsError
deriving DecidableEq, Repr

/-- Play the steps of a stage. -/
def playSteps (progressCallback : Js Unit) : List StageStep → Js Unit
  | [] => pure ()
  | .work label :: rest => do perform (.stageWork label); playSteps progressCallback rest
  | .tick :: rest => do progressCallback; playSteps progressCallback rest

/-- The call `stage(projectName, progressCallback)` of such a stage. -/
def Stage.call (stage : Stage) (progressCallback : Js Unit) : Js Unit := do
  playSteps progressCallback stage.steps
  match stage.failure with
  | none => pure ()
  | some e => throw e

/-- The number of times a stage calls the progress callback. -/
def Stage.ticks (stage : Stage) : ℕ := stage.steps.count .tick

/-- White space and line terminators, the characters `String.prototype.trim` removes. -/
def isJsWhitespace (c : Char) : Bool :=
  c.toNat ∈ [0x09, 0x0A, 0x0B, 0x0C, 0x0D, 0x20, 0xA0, 0x1680, 0x2000, 0x2001, 0x2002, 0x2003,
    0x2004, 0x2005, 0x2006, 0x2007, 0x2008, 0x2009, 0x200A, 0x2028, 0x2029, 0x202F, 0x205F,
    0x3000, 0xFEFF]

/-- The method `data.trim()`. -/
def trim (data : String) : String :=
  ⟨((data.data.dropWhile isJsWhitespace).reverse.dropWhile isJsWhitespace).reverse⟩

namespace process

/-- `process.exit(code)`. -/
def exit (code : ℕ) : Js Unit := perform (.processExit code)

end process

/-- The declarations `let completedSteps = 0; let lastPercentage = -1;`. -/
def declareCounters : Js Unit := fun w =>
  (.ok (), { w with completedSteps := 0, lastPercentage := -1 })

/-- The listener `process.stdin.on('data', async function (data) { ... })`.  The two stages
that are not among the sources are given as what they do for each project name. -/
def onData (fs : FileWriter) (initializeProject createDirectories : String → Stage)
    (data : String) : Js Unit := do
  let projectName := trim data
  declareCounters
  try
    (initializeProject projectName).call updateProgress
    (createDirectories projectName).call updateProgress
    createFiles fs projectName updateProgress none none none
    console.log (chalk.blue "\n[100%] " ++ chalk.greenBold "Project setup completed!")
  catch error =>
    console.error ("Error generating project: " ++ error.rendered)
    process.exit 1

/-! ## Notions used to state the properties -/

/-- The next call of `updateProgress` will compute a percentage above the last one written,
so it will write. -/
def FreshPercentage (w : World) : Prop :=
  w.lastPercentage < percentageOf (w.completedSteps + 1)

/-- The world after `n` calls of `updateProgress` from the start. -/
def afterCalls (n : ℕ) : World := (callTimes updateProgress n World.start).2

/-- One step of the file emitter: the file to write, its content, and the text logged once
it is written. -/
structure FileStep where
  path : String
  content : String
  logText : String
deriving DecidableEq, Repr

/-- The steps of the file emitter for a project name and a choice of options, in the order
the specification lists them: the server entry file, the compiler configuration for
TypeScript, the connector and the user model for MongoDB, the readme. -/
def fileSteps (projectName : String) (language installJsonwebtoken addDatabase : JsArg) :
    List FileStep :=
  [{ path := projectName ++ "/src/server." ++ (if language = some "TypeScript" then "ts" else "js")
     content := if language = some "TypeScript" then tsBoilerplate installJsonwebtoken
       else boilerplateServerCode installJsonwebtoken addDatabase
     logText := "Created server.js" }] ++
  (if language = some "TypeScript" then
    [{ path := projectName ++ "/tsconfig.json", content := tsConfig,
       logText := "Created tsconfig.json" }]
   else []) ++
  (if addDatabase = some "MongoDB" then
    [{ path := projectName ++ "/src/configs/db.js", content := dbConfig language,
       logText := "Created db.js" },
     { path := projectName ++ "/src/models/userModel.js", content := userModel language,
       logText := "Created user.js" }]
   else []) ++
  [{ path := projectName ++ "/readme.md"
     content := "# Project created using express-app-generator"
     logText := "Created readme.md" }]

/-- Run a list of steps: each one writes its file, logs its line and calls the callback, and
is started only when the one before it went through. -/
def emitSteps (fs : FileWriter) (progressCallback : Js Unit) : List FileStep → Js Unit
  | [] => pure ()
  | s :: rest => do
    createFile fs s.path s.content
    console.log (chalk.green s.logText)
    progressCallback
    emitSteps fs progressCallback rest

/-- The world after one step went through: the write, the log line, the callback. -/
def stepDone (g : World → World) (w : World) (s : FileStep) : World :=
  g (w.emit [.createFile s.path s.content none, .consoleLog s.logText])

/-- The events of a run of `m` that starts in the world `w`: what the run adds to the trace. -/
def runEvents {α : Type} (m : Js α) (w : World) : List Event :=
  (m w).2.trace.drop w.trace.length

/-- The events of a step that went through, the callback being `recordCall`. -/
def FileStep.events (s : FileStep) : List Event :=
  [.createFile s.path s.content none, .consoleLog s.logText, .callbackRan]

/-- What `recordCall` does to the world. -/
def recorded (w : World) : World := w.emit [.callbackRan]

/-- A file writer that never fails. -/
def succeedingWriter : FileWriter := fun _ _ _ => none

/-- Whether an event is a call of the file writer that failed. -/
def Event.isFailedWrite : Event → Bool
  | .createFile _ _ (some _) => true
  | _ => false

/-- The event of a step's write having succeeded. -/
def FileStep.written (s : FileStep) : Event := .createFile s.path s.content none

/-- The calls of the file writer among some events, in order. -/
def writesOf (es : List Event) : List Event := es.filter Event.isCreateFile

/-- Whether an event is a call of the file writer or of the recording callback. -/
def Event.isWriteOrCallback (ev : Event) : Bool := ev.isCreateFile || ev == .callbackRan

/-- The path a call of the file writer is about. -/
def Event.path? : Event → Option String
  | .createFile path _ _ => some path
  | _ => none

/-- Whether an event is a line on the console. -/
def Event.isConsole : Event → Bool
  | .consoleLog _ => true
  | .consoleError _ => true
  | _ => false

/-- A file writer whose call number `n` (counted from 0) fails with `e`, every other call
succeeding. -/
def failingAt (n : ℕ) (e : JsError) : FileWriter := fun i _ _ => if i = n then some e else none

/-- What `updateProgress` does to the world. -/
def progressed (w : World) : World := (updateProgress w).2

/-- The world after a stage played its steps with `updateProgress` as its callback. -/
def afterSteps : List StageStep → World → World
  | [], w => w
  | .work label :: rest, w => afterSteps rest (w.emit [.stageWork label])
  | .tick :: rest, w => afterSteps rest (progressed w)

/-- The units of work among the steps of a stage, as events. -/
def workOf : List StageStep → List Event
  | [] => []
  | .work label :: rest => .stageWork label :: workOf rest
  | .tick :: rest => workOf rest

/-- The units of work of a stage, as events. -/
def Stage.work (stage : Stage) : List Event := workOf stage.steps

/-- Whether an event is a progress marker. -/
def Event.isMarker : Event → Bool
  | .progressMarker _ => true
  | _ => false

/-- Some events without the progress markers. -/
def visible (es : List Event) : List Event := es.filter fun ev => !ev.isMarker

/-- What the `catch` block of the listener does with the error `e`: it logs the error and
ends the process with exit status 1. -/
def failureReport (e : JsError) : List Event :=
  [.consoleError ("Error generating project: " ++ e.rendered), .processExit 1]

/-- The final success message of the listener. -/
def successLine : Event := .consoleLog "\n[100%] Project setup completed!"

/-- The events of a step that went through, apart from what its callback does. -/
def FileStep.shown (s : FileStep) : List Event :=
  [.createFile s.path s.content none, .consoleLog s.logText]

/-- The world right after the listener declared its counters. -/
def World.reset (w : World) : World := { w with completedSteps := 0, lastPercentage := -1 }

/-- A run of an initializer: two units of work, each followed by a call of the callback,
after which it resolves. -/
def sampleInitializer : String → Stage := fun projectName =>
  { steps := [.work ("mkdir " ++ projectName), .tick, .work "npm init -y", .tick], failure := none }

/-- A run of a directory builder: eight units of work, each followed by a call of the
callback, after which it resolves. -/
def sampleDirectories : String → Stage := fun projectName =>
  { steps := [.work ("mkdir " ++ projectName ++ "/src"), .tick,
      .work ("mkdir " ++ projectName ++ "/src/configs"), .tick,
      .work ("mkdir " ++ projectName ++ "/src/models"), .tick,
      .work ("mkdir " ++ projectName ++ "/src/routes"), .tick,
      .work ("mkdir " ++ projectName ++ "/src/controllers"), .tick,
      .work ("mkdir " ++ projectName ++ "/src/middlewares"), .tick,
      .work ("mkdir " ++ projectName ++ "/src/utils"), .tick,
      .work ("mkdir " ++ projectName ++ "/src/services"), .tick],
    failure := none }

/-! ## Notions used to compare the templates -/

/-- The number of places in a text at which a pattern starts. -/
def occurrencesIn (pat : List Char) : List Char → ℕ
  | [] => 0
  | c :: cs => (if pat.isPrefixOf (c :: cs) then 1 else 0) + occurrencesIn pat cs

/-- The number of occurrences of a non-empty pattern in a text. -/
def occurrences (text pat : String) : ℕ := occurrencesIn pat.data text.data

/-- Whether a pattern occurs in a text. -/
def mentions (text pat : String) : Bool := decide (0 < occurrences text pat)

/-- Cut a text at its line feeds. -/
def splitLines : List Char → List (List Char)
  | [] => [[]]
  | c :: cs =>
    if c = '\n' then [] :: splitLines cs
    else
      match splitLines cs with
      | [] => [[c]]
      | line :: rest => (c :: line) :: rest

/-- The lines of a text. -/
def textLines (text : String) : List String := (splitLines text.data).map String.mk

/-- Cut a line at the first blank that is followed by `//`. -/
def cutComment : List Char → List Char
  | [] => []
  | c :: cs => if " //".data.isPrefixOf (c :: cs) then [] else c :: cutComment cs

/-- The code on a line: the line without its `//` comment and without blanks at its end. -/
def lineCode (line : String) : String :=
  ⟨((if "//".data.isPrefixOf line.data then [] else cutComment line.data).reverse.dropWhile
    (· = ' ')).reverse⟩

/-- The code of a text, line by line, lines without code left out. -/
def codeLines (text : String) : List String :=
  ((textLines text).map lineCode).filter (· ≠ "")

/-- A line that brings a module in: an `import`, a `require(...)`, or the call that loads
the environment file. -/
def isModuleLine (line : String) : Bool :=
  "import ".data.isPrefixOf line.data || mentions line "require(" || line == "dotenv.config();"

/-- The line that opens the error-handling middleware, with its parameter list. -/
def isErrorHandlerHead (line : String) : Bool := "app.use((err".data.isPrefixOf line.data

/-- The line that prints the message of the listen call. -/
def isListenMessage (line : String) : Bool := mentions line "console.log("

/-- The line that exports the application. -/
def isExportLine (line : String) : Bool :=
  "export ".data.isPrefixOf line.data || "module.exports".data.isPrefixOf line.data

/-- The code of a text outside its module lines and the head of its error handler. -/
def codeBesideModulesAndTypes (text : String) : List String :=
  (codeLines text).filter fun line => !(isModuleLine line || isErrorHandlerHead line)

/-- The code of a text outside its module lines, the head of its error handler, the message of
its listen call and its export. -/
def sharedCode (text : String) : List String :=
  (codeLines text).filter fun line =>
    !(isModuleLine line || isErrorHandlerHead line || isListenMessage line || isExportLine line)

/-- The code that the two server entry texts have in common. -/
def commonCode : List String :=
  ["const app = express();",
   "const PORT = process.env.PORT || 3000;",
   "app.use(cors());",
   "app.use(express.json());",
   "app.use(express.urlencoded(\x7b extended: true \x7d));",
   "app.use(express.static('static'));",
   "app.get('/', (req, res) => \x7b",
   "  res.json(\x7b message: 'Welcome to this new Express.js Project' \x7d);",
   "\x7d);",
   "  console.error(err.stack);",
   "  res.status(500).json(\x7b error: 'Something went wrong!' \x7d);",
   "\x7d);",
   "app.listen(PORT, () => \x7b",
   "\x7d);"]

/-- The code lines of `server.js`, with the line for the JWT library or without it. -/
def javascriptCode (jwt : Bool) : List String :=
  if jwt then
    ["const express = require('express');",
     "const cors = require('cors');",
     "const jwt = require('jsonwebtoken');",
     "require('dotenv').config();",
     "const app = express();",
     "const PORT = process.env.PORT || 3000;",
     "app.use(cors());",
     "app.use(express.json());",
     "app.use(express.urlencoded(\x7b extended: true \x7d));",
     "app.use(express.static('static'));",
     "app.get('/', (req, res) => \x7b",
     "  res.json(\x7b message: 'Welcome to this new Express.js Project' \x7d);",
     "\x7d);",
     "app.use((err, req, res, next) => \x7b",
     "  console.error(err.stack);",
     "  res.status(500).json(\x7b error: 'Something went wrong!' \x7d);",
     "\x7d);",
     "app.listen(PORT, () => \x7b",
     "  console.log(`Server is running on http://localhost:$\x7bPORT\x7d/`);",
     "\x7d);",
     "module.exports = app;"]
  else
    ["const express = require('express');",
     "const cors = require('cors');",
     "require('dotenv').config();",
     "const app = express();",
     "const PORT = process.env.PORT || 3000;",
     "app.use(cors());",
     "app.use(express.json());",
     "app.use(express.urlencoded(\x7b extended: true \x7d));",
     "app.use(express.static('static'));",
     "app.get('/', (req, res) => \x7b",
     "  res.json(\x7b message: 'Welcome to this new Express.js Project' \x7d);",
     "\x7d);",
     "app.use((err, req, res, next) => \x7b",
     "  console.error(err.stack);",
     "  res.status(500).json(\x7b error: 'Something went wrong!' \x7d);",
     "\x7d);",
     "app.listen(PORT, () => \x7b",
     "  console.log(`Server is running on http://localhost:$\x7bPORT\x7d/`);",
     "\x7d);",
     "module.exports = app;"]

/-- The code lines of `server.ts`, with the line for the JWT library or without it. -/
def typescriptCode (jwt : Bool) : List String :=
  if jwt then
    ["import express from 'express';",
     "import cors from 'cors';",
     "import dotenv from 'dotenv';",
     "import jwt from 'jsonwebtoken';",
     "dotenv.config();",
     "const app = express();",
     "const PORT = process.env.PORT || 3000;",
     "app.use(cors());",
     "app.use(express.json());",
     "app.use(express.urlencoded(\x7b extended: true \x7d));",
     "app.use(express.static('static'));",
     "app.get('/', (req, res) => \x7b",
     "  res.json(\x7b message: 'Welcome to this new Express.js Project' \x7d);",
     "\x7d);",
     "app.use((err: Error, req: express.Request, res: express.Response, next: express.NextFunction) => \x7b",
     "  console.error(err.stack);",
     "  res.status(500).json(\x7b error: 'Something went wrong!' \x7d);",
     "\x7d);",
     "app.listen(PORT, () => \x7b",
     "  console.log(`Server running on http://localhost:$\x7bPORT\x7d/`);",
     "\x7d);",
     "export default app;"]
  else
    ["import express from 'express';",
     "import cors from 'cors';",
     "import dotenv from 'dotenv';",
     "dotenv.config();",
     "const app = express();",
     "const PORT = process.env.PORT || 3000;",
     "app.use(cors());",
     "app.use(express.json());",
     "app.use(express.urlencoded(\x7b extended: true \x7d));",
     "app.use(express.static('static'));",
     "app.get('/', (req, res) => \x7b",
     "  res.json(\x7b message: 'Welcome to this new Express.js Project' \x7d);",
     "\x7d);",
     "app.use((err: Error, req: express.Request, res: express.Response, next: express.NextFunction) => \x7b",
     "  console.error(err.stack);",
     "  res.status(500).json(\x7b error: 'Something went wrong!' \x7d);",
     "\x7d);",
     "app.listen(PORT, () => \x7b",
     "  console.log(`Server running on http://localhost:$\x7bPORT\x7d/`);",
     "\x7d);",
     "export default app;"]

/-- The names by which a text could refer to the database connector: its file `db`, the
library it wraps and the function it exports. -/
def connectorNames : List String := ["db", "mongoose", "connectDB"]

/-- A run of a directory builder that fails at its third unit of work. -/
def failingDirectories : String → Stage := fun projectName =>
  { steps := [.work ("mkdir " ++ projectName ++ "/src"), .tick,
      .work ("mkdir " ++ projectName ++ "/src/configs"), .tick],
    failure := some ⟨"EACCES: permission denied, mkdir"⟩ }

/-- A run of an initializer that fails at its second unit of work. -/
def failingInitializer : String → Stage := fun projectName =>
  { steps := [.work ("mkdir " ++ projectName), .tick], failure := some ⟨"spawn npm ENOENT"⟩ }

/-! ## Running computations: lemmas -/

theorem run_bind {α β : Type} (m : Js α) (f : α → Js β) (w : World) :
    (m >>= f) w = match m w with
      | (.ok a, w1) => f a w1
      | (.error e, w1) => (.error e, w1) := rfl

theorem run_bind_ok {α β : Type} {m : Js α} {f : α → Js β} {w w1 : World} {a : α}
    (h : m w = (.ok a, w1)) : (m >>= f) w = f a w1 := by
  rw [run_bind, h]

theorem run_bind_error {α β : Type} {m : Js α} {f : α → Js β} {w w1 : World} {e : JsError}
    (h : m w = (.error e, w1)) : (m >>= f) w = (.error e, w1) := by
  rw [run_bind, h]

theorem run_pure {α : Type} (a : α) (w : World) : (pure a : Js α) w = (.ok a, w) := rfl

/-! ## The progress callback: lemmas -/

theorem percentageOf_eq (k : ℕ) : percentageOf k = (((50 * k + 3) / 6 : ℕ) : ℤ) := by
  unfold percentageOf Math.round TOTAL_STEPS
  have h : ((k : ℚ) / ((2 + 8 + 2 : ℕ) : ℚ)) * 100 + 1 / 2
      = ((50 * k + 3 : ℕ) : ℚ) / ((6 : ℕ) : ℚ) := by
    push_cast
    ring
  rw [h, Rat.floor_natCast_div_natCast]
  norm_cast

/-- `Math.round` gives the percentage of exact arithmetic at every number less than `1/6`
away from `completedSteps / TOTAL_STEPS * 100`. -/
theorem round_near (k : ℕ) (x : ℚ)
    (hx : |x - ((k : ℚ) / (TOTAL_STEPS : ℚ)) * 100| < 1 / 6) :
    Math.round x = percentageOf k := by
  rw [percentageOf_eq]
  unfold Math.round
  rw [Int.floor_eq_iff]
  have hdiv : 50 * k + 3 = 6 * ((50 * k + 3) / 6) + (50 * k + 3) % 6 := (Nat.div_add_mod _ _).symm
  have hmod : (50 * k + 3) % 6 = 1 ∨ (50 * k + 3) % 6 = 3 ∨ (50 * k + 3) % 6 = 5 := by omega
  have hq : ((k : ℚ) / (TOTAL_STEPS : ℚ)) * 100 + 1 / 2 =
      (((50 * k + 3) / 6 : ℕ) : ℚ) + (((50 * k + 3) % 6 : ℕ) : ℚ) / 6 := by
    have h1 : ((50 * k + 3 : ℕ) : ℚ) =
        6 * (((50 * k + 3) / 6 : ℕ) : ℚ) + (((50 * k + 3) % 6 : ℕ) : ℚ) := by
      exact_mod_cast congrArg (Nat.cast : ℕ → ℚ) hdiv
    have h2 : ((k : ℚ) / (TOTAL_STEPS : ℚ)) * 100 + 1 / 2 = ((50 * k + 3 : ℕ) : ℚ) / 6 := by
      unfold TOTAL_STEPS
      push_cast
      ring
    rw [h2, h1]
    ring
  rw [abs_lt] at hx
  obtain ⟨hlo, hhi⟩ := hx
  simp only [Int.cast_natCast]
  rcases hmod with h | h | h <;> rw [h] at hq <;> push_cast at hq <;> constructor <;> linarith

/-- Up to `maxExactCalls` the expression of the source gives the percentage of exact
arithmetic, whatever rounding `fl` the two double operations use, provided its relative error
is at most `2^-53`. -/
theorem percentageOf_doubles (fl : ℚ → ℚ) (hfl : ∀ y : ℚ, |fl y - y| ≤ |y| / 2 ^ 53)
    (k : ℕ) (hk : k ≤ maxExactCalls) :
    Math.round (fl (fl ((k : ℚ) / (TOTAL_STEPS : ℚ)) * 100)) = percentageOf k := by
  apply round_near
  have hk' : (k : ℚ) ≤ 2 ^ 46 := by
    have : ((k : ℕ) : ℚ) ≤ ((2 ^ 46 : ℕ) : ℚ) := Nat.cast_le.mpr hk
    push_cast at this
    exact this
  have hk0 : (0 : ℚ) ≤ k := Nat.cast_nonneg k
  set a : ℚ := (k : ℚ) / (TOTAL_STEPS : ℚ) with ha
  have ha0 : 0 ≤ a := by unfold TOTAL_STEPS at ha; rw [ha]; positivity
  have ha1 : a ≤ 2 ^ 46 / 12 := by
    rw [ha]; unfold TOTAL_STEPS; push_cast; linarith
  have h1 := hfl a
  have h2 := hfl (fl a * 100)
  rw [abs_of_nonneg ha0] at h1
  have h3 : |fl a * 100| ≤ 100 * a + 100 * (a / 2 ^ 53) := by
    rw [abs_le] at h1 ⊢
    constructor <;> linarith [h1.1, h1.2]
  have h4 : |fl (fl a * 100) - a * 100| ≤
      (100 * a + 100 * (a / 2 ^ 53)) / 2 ^ 53 + 100 * (a / 2 ^ 53) := by
    have h5 : |fl (fl a * 100) - fl a * 100| ≤ (100 * a + 100 * (a / 2 ^ 53)) / 2 ^ 53 :=
      h2.trans (by gcongr)
    rw [abs_le] at h1 h5 ⊢
    constructor <;> linarith [h1.1, h1.2, h5.1, h5.2]
  refine lt_of_le_of_lt h4 ?_
  have : (100 * a + 100 * (a / 2 ^ 53)) / 2 ^ 53 + 100 * (a / 2 ^ 53) ≤
      (100 * (2 ^ 46 / 12) + 100 * ((2 ^ 46 / 12) / 2 ^ 53)) / 2 ^ 53 +
        100 * ((2 ^ 46 / 12 : ℚ) / 2 ^ 53) := by
    gcongr
  refine lt_of_le_of_lt this ?_
  norm_num

theorem percentageOf_lt_succ (k : ℕ) : percentageOf k < percentageOf (k + 1) := by
  rw [percentageOf_eq, percentageOf_eq]
  omega

theorem percentageOf_strictMono : StrictMono percentageOf :=
  strictMono_nat_of_lt_succ percentageOf_lt_succ


theorem updateProgress_run (w : World) (h : FreshPercentage w) :
    updateProgress w = (.ok (),
      { completedSteps := w.completedSteps + 1
        lastPercentage := percentageOf (w.completedSteps + 1)
        trace := w.trace ++ [.progressMarker (percentageOf (w.completedSteps + 1))] }) := by
  unfold FreshPercentage at h
  simp [updateProgress, ne_of_gt h]

theorem updateProgress_fresh (w : World) : FreshPercentage (updateProgress w).2 := by
  unfold updateProgress FreshPercentage
  by_cases h : percentageOf (w.completedSteps + 1) = w.lastPercentage
  · simp [h]
    rw [← h]; exact percentageOf_lt_succ _
  · simp [h]
    exact percentageOf_lt_succ _

theorem start_fresh : FreshPercentage World.start := by
  unfold FreshPercentage World.start
  rw [percentageOf_eq]
  decide

theorem callTimes_updateProgress (n : ℕ) (w : World) (h : FreshPercentage w) :
    callTimes updateProgress n w = (.ok (),
      { completedSteps := w.completedSteps + n
        lastPercentage := if n = 0 then w.lastPercentage else percentageOf (w.completedSteps + n)
        trace := w.trace ++ (List.range' (w.completedSteps + 1) n).map
          fun k => .progressMarker (percentageOf k) }) := by
  induction n with
  | zero => simp [callTimes, run_pure]
  | succ n ih =>
    rw [callTimes, run_bind_ok ih, updateProgress_run]
    · simp [List.range'_concat, add_assoc, add_comm 1 n]
    · simp only [FreshPercentage]
      split
      · subst_vars; simpa using h
      · exact percentageOf_lt_succ _

theorem afterCalls_eq (n : ℕ) :
    afterCalls n =
      { completedSteps := n
        lastPercentage := if n = 0 then -1 else percentageOf n
        trace := (List.range' 1 n).map fun k => .progressMarker (percentageOf k) } := by
  unfold afterCalls
  rw [callTimes_updateProgress n World.start start_fresh]
  simp [World.start]

theorem emitted_afterCalls (n : ℕ) : emitted (afterCalls n) = (List.range' 1 n).map percentageOf := by
  rw [afterCalls_eq]
  simp only [emitted, percentagesIn, List.filterMap_map, Function.comp_def]
  exact congrFun (List.filterMap_eq_map percentageOf) _

theorem emitted_afterCalls_succ (n : ℕ) :
    emitted (afterCalls (n + 1)) = emitted (afterCalls n) ++ [percentageOf (n + 1)] := by
  rw [emitted_afterCalls, emitted_afterCalls, List.range'_concat]
  simp [add_comm]

theorem percentages_increasing (n : ℕ) :
    ((List.range' 1 n).map percentageOf).Pairwise (· < ·) := by
  rw [List.pairwise_map]
  exact (List.pairwise_lt_range' 1 n).imp fun h => percentageOf_strictMono h

/-! ## The progress callback: the sequence of percentages -/

/-- C4: from `completedSteps = 0` and `lastPercentage = -1`, with `TOTAL_STEPS = 12`, for
every number `n ≤ 2^46` of calls of `updateProgress` (the range in which the doubles of the
source give the percentages of exact arithmetic, which is the second statement): the calls end
normally; nothing is written before the first call; call number `k` writes
`round(k / 12 * 100)` and nothing else; the values written are non-decreasing and no value is
written twice; after 12 calls the last value written is 100. -/
theorem updateProgress_sequence (n : ℕ) (hn : n ≤ maxExactCalls) :
    TOTAL_STEPS = 12 ∧
    (∀ fl : ℚ → ℚ, (∀ y : ℚ, |fl y - y| ≤ |y| / 2 ^ 53) → ∀ k, k ≤ n →
      Math.round (fl (fl ((k : ℚ) / (TOTAL_STEPS : ℚ)) * 100)) = percentageOf k) ∧
    (callTimes updateProgress n World.start).1 = .ok () ∧
    emitted (afterCalls 0) = [] ∧
    (∀ k, 1 ≤ k → k ≤ n →
      emitted (afterCalls k) =
        emitted (afterCalls (k - 1)) ++ [Math.round (((k : ℕ) : ℚ) / 12 * 100)]) ∧
    emitted (afterCalls n) = (List.range' 1 n).map percentageOf ∧
    (emitted (afterCalls n)).Sorted (· ≤ ·) ∧
    (emitted (afterCalls n)).Nodup ∧
    (emitted (afterCalls 12)).getLast? = some 100 := by
  refine ⟨rfl, ?_, ?_, ?_, ?_, emitted_afterCalls n, ?_, ?_, ?_⟩
  · intro fl hfl k hk
    exact percentageOf_doubles fl hfl k (hk.trans hn)
  · rw [callTimes_updateProgress n World.start start_fresh]
  · rw [emitted_afterCalls]; rfl
  · intro k h1 _
    obtain ⟨j, rfl⟩ : ∃ j, k = j + 1 := ⟨k - 1, by omega⟩
    rw [Nat.add_sub_cancel, emitted_afterCalls_succ]
    simp [percentageOf, TOTAL_STEPS]
  · rw [emitted_afterCalls]
    exact (percentages_increasing n).imp le_of_lt
  · rw [emitted_afterCalls]
    exact (percentages_increasing n).imp ne_of_lt
  · rw [emitted_afterCalls]
    simp [List.range', percentageOf_eq]

/-- C4 for 12 calls: call 12 writes `round(12 / 12 * 100)`, and the twelve values written are
those of calls 1 to 12, without repetition. -/
theorem updateProgress_sequence_witness :
    emitted (afterCalls 12) =
      emitted (afterCalls (12 - 1)) ++ [Math.round (((12 : ℕ) : ℚ) / 12 * 100)] ∧
    emitted (afterCalls 12) = (List.range' 1 12).map percentageOf ∧
    (emitted (afterCalls 12)).Nodup :=
  have h := updateProgress_sequence 12 (by decide)
  ⟨h.2.2.2.2.1 12 (by decide) (by decide), h.2.2.2.2.2.1, h.2.2.2.2.2.2.2.1⟩

/-- C10: calling `updateProgress` more often than `TOTAL_STEPS = 12` never fails.  For every
number `k ≤ 2^46` of calls (the range in which the doubles of the source give the percentages
of exact arithmetic, which is the first statement): the calls end normally, and if `k > 12`
call number `k` writes a percentage above 100 (a run of 15 calls ends on 125); if
`1 ≤ k ≤ 12` call number `k` writes a percentage in `[1, 100]`, and as long as `k ≤ 12` the
stored `lastPercentage` lies in `[-1, 100]`. -/
theorem updateProgress_overrun (k : ℕ) (hk : k ≤ maxExactCalls) :
    (∀ fl : ℚ → ℚ, (∀ y : ℚ, |fl y - y| ≤ |y| / 2 ^ 53) →
      Math.round (fl (fl ((k : ℚ) / (TOTAL_STEPS : ℚ)) * 100)) = percentageOf k) ∧
    (callTimes updateProgress k World.start).1 = .ok () ∧
    (12 < k → emitted (afterCalls k) = emitted (afterCalls (k - 1)) ++ [percentageOf k] ∧
      100 < percentageOf k) ∧
    (emitted (afterCalls 15)).getLast? = some 125 ∧
    (1 ≤ k → k ≤ 12 → emitted (afterCalls k) = emitted (afterCalls (k - 1)) ++ [percentageOf k] ∧
      1 ≤ percentageOf k ∧ percentageOf k ≤ 100) ∧
    (k ≤ 12 → -1 ≤ (afterCalls k).lastPercentage ∧ (afterCalls k).lastPercentage ≤ 100) := by
  refine ⟨fun fl hfl => percentageOf_doubles fl hfl k hk, ?_, ?_, ?_, ?_, ?_⟩
  · rw [callTimes_updateProgress k World.start start_fresh]
  · intro hk
    obtain ⟨j, rfl⟩ : ∃ j, k = j + 1 := ⟨k - 1, by omega⟩
    refine ⟨emitted_afterCalls_succ j, ?_⟩
    rw [percentageOf_eq]
    omega
  · rw [emitted_afterCalls]
    simp [List.range', percentageOf_eq]
  · intro h1 h12
    obtain ⟨j, rfl⟩ : ∃ j, k = j + 1 := ⟨k - 1, by omega⟩
    refine ⟨emitted_afterCalls_succ j, ?_, ?_⟩ <;> rw [percentageOf_eq] <;> omega
  · intro h12
    rw [afterCalls_eq]
    by_cases h0 : k = 0
    · simp [h0]
    · simp only [h0, if_false]
      rw [percentageOf_eq]
      omega

/-- C10 at calls 15 and 7: call 15 writes 125, above 100; call 7 writes 58, within `[1, 100]`,
and the stored percentage is then 58. -/
theorem updateProgress_overrun_witness :
    (emitted (afterCalls 15) = emitted (afterCalls (15 - 1)) ++ [percentageOf 15] ∧
      100 < percentageOf 15) ∧
    (emitted (afterCalls 7) = emitted (afterCalls (7 - 1)) ++ [percentageOf 7] ∧
      1 ≤ percentageOf 7 ∧ percentageOf 7 ≤ 100) ∧
    (-1 ≤ (afterCalls 7).lastPercentage ∧ (afterCalls 7).lastPercentage ≤ 100) :=
  ⟨(updateProgress_overrun 15 (by decide)).2.2.1 (by decide),
   (updateProgress_overrun 7 (by decide)).2.2.2.2.1 (by decide) (by decide),
   (updateProgress_overrun 7 (by decide)).2.2.2.2.2 (by decide)⟩

/-! ## The file emitter: it runs its steps one after the other -/

theorem bind_assoc_js {α β γ : Type} (m : Js α) (f : α → Js β) (g : β → Js γ) :
    (m >>= f) >>= g = m >>= fun a => f a >>= g := by
  funext w
  simp only [run_bind]
  rcases m w with ⟨_ | _, w1⟩ <;> rfl

theorem pure_bind_js {α β : Type} (a : α) (f : α → Js β) : (pure a : Js α) >>= f = f a := rfl

theorem createFiles_eq_emitSteps (fs : FileWriter) (projectName : String)
    (progressCallback : Js Unit) (language installJsonwebtoken addDatabase : JsArg) :
    createFiles fs projectName progressCallback language installJsonwebtoken addDatabase =
      tryCatch
        (do emitSteps fs progressCallback
              (fileSteps projectName language installJsonwebtoken addDatabase)
            console.log (chalk.green "Project generated successfully!"))
        (fun error => do
          console.error (chalk.red ("Error creating files: " ++ error.rendered))
          throw error) := by
  unfold createFiles fileSteps
  by_cases hl : language = some "TypeScript" <;> by_cases hd : addDatabase = some "MongoDB" <;>
    simp only [hl, hd, if_true, if_false, emitSteps, bind_assoc_js, pure_bind_js,
      List.singleton_append, List.cons_append, List.nil_append, List.append_nil]


theorem emit_emit (w : World) (xs ys : List Event) : (w.emit xs).emit ys = w.emit (xs ++ ys) := by
  simp [World.emit]

theorem emitSteps_outcome (fs : FileWriter) (cb : Js Unit) (g : World → World)
    (hcb : ∀ w, cb w = (.ok (), g w)) (steps : List FileStep) (w : World) :
    emitSteps fs cb steps w = (.ok (), steps.foldl (stepDone g) w) ∨
    ∃ pre s post e, steps = pre ++ s :: post ∧
      emitSteps fs cb steps w =
        (.error e, (pre.foldl (stepDone g) w).emit [.createFile s.path s.content (some e)]) := by
  induction steps generalizing w with
  | nil => left; rfl
  | cons s rest ih =>
    cases hfs : fs (writeCount w) s.path s.content with
    | some e =>
      right
      refine ⟨[], s, rest, e, rfl, ?_⟩
      have h1 : createFile fs s.path s.content w
          = (.error e, w.emit [.createFile s.path s.content (some e)]) := by
        simp [createFile, hfs]
      rw [emitSteps, run_bind_error h1]
      rfl
    | none =>
      have h1 : createFile fs s.path s.content w
          = (.ok (), w.emit [.createFile s.path s.content none]) := by
        simp [createFile, hfs]
      have h2 : emitSteps fs cb (s :: rest) w = emitSteps fs cb rest (stepDone g w s) := by
        rw [emitSteps, run_bind_ok h1]
        have h3 : console.log (chalk.green s.logText) (w.emit [.createFile s.path s.content none])
            = (.ok (), w.emit [.createFile s.path s.content none, .consoleLog s.logText]) := by
          simp [console.log, perform, chalk.green, emit_emit]
        rw [run_bind_ok h3, run_bind_ok (hcb _)]
        rfl
      rcases ih (stepDone g w s) with h | ⟨pre, t, post, e, hsplit, h⟩
      · left
        rw [h2, h]
        rfl
      · right
        refine ⟨s :: pre, t, post, e, by rw [hsplit]; rfl, ?_⟩
        rw [h2, h]
        rfl


theorem recordCall_run (w : World) : recordCall w = (.ok (), recorded w) := rfl

theorem runEvents_of_emit {α : Type} (m : Js α) (w : World) (r : Except JsError α)
    (es : List Event) (h : m w = (r, w.emit es)) : runEvents m w = es := by
  simp [runEvents, h, World.emit]

theorem foldl_stepDone_recorded (steps : List FileStep) (w : World) :
    steps.foldl (stepDone recorded) w = w.emit (steps.flatMap FileStep.events) := by
  induction steps generalizing w with
  | nil => simp [World.emit]
  | cons s rest ih =>
    rw [List.foldl_cons, ih]
    simp [stepDone, recorded, emit_emit, FileStep.events, List.flatMap_cons]

theorem createFiles_outcome (fs : FileWriter) (projectName : String) (cb : Js Unit)
    (g : World → World) (hcb : ∀ w, cb w = (.ok (), g w))
    (language installJsonwebtoken addDatabase : JsArg) (w : World) :
    createFiles fs projectName cb language installJsonwebtoken addDatabase w =
        (.ok (), ((fileSteps projectName language installJsonwebtoken addDatabase).foldl
          (stepDone g) w).emit [.consoleLog "Project generated successfully!"]) ∨
    ∃ pre s post e,
      fileSteps projectName language installJsonwebtoken addDatabase = pre ++ s :: post ∧
      createFiles fs projectName cb language installJsonwebtoken addDatabase w =
        (.error e, (pre.foldl (stepDone g) w).emit
          [.createFile s.path s.content (some e),
           .consoleError ("Error creating files: " ++ e.rendered)]) := by
  rw [createFiles_eq_emitSteps]
  rcases emitSteps_outcome fs cb g hcb
    (fileSteps projectName language installJsonwebtoken addDatabase) w with h | ⟨pre, s, post, e, hs, h⟩
  · left
    show Js.tryCatch _ _ w = _
    unfold Js.tryCatch
    rw [run_bind_ok h]
    rfl
  · right
    refine ⟨pre, s, post, e, hs, ?_⟩
    show Js.tryCatch _ _ w = _
    unfold Js.tryCatch
    rw [run_bind_error h]
    simp only [run_bind, console.error, perform, chalk.red, emit_emit]
    rfl

theorem append_left_cancel_str {p a b : String} (h : p ++ a = p ++ b) : a = b := by
  have h1 := congrArg String.data h
  simp only [String.data_append] at h1
  exact String.ext (List.append_cancel_left h1)

theorem fileSteps_paths_nodup (projectName : String) (language installJsonwebtoken addDatabase : JsArg) :
    ((fileSteps projectName language installJsonwebtoken addDatabase).map FileStep.path).Nodup := by
  have key : ∀ a b : String, a ≠ b → projectName ++ a ≠ projectName ++ b :=
    fun a b hab h => hab (append_left_cancel_str h)
  unfold fileSteps
  by_cases hl : language = some "TypeScript" <;> by_cases hd : addDatabase = some "MongoDB" <;>
    simp only [hl, hd, if_true, if_false, List.singleton_append, List.cons_append, List.nil_append,
      List.append_nil, List.map_cons, List.map_nil, String.append_assoc, List.nodup_cons,
      List.mem_cons, List.mem_singleton, List.not_mem_nil, not_or, List.nodup_nil, or_false,
      and_true, not_false_eq_true] <;>
    refine ?_ <;> (repeat' constructor) <;> (apply key; decide)

theorem fileSteps_length (projectName : String) (language installJsonwebtoken addDatabase : JsArg) :
    (fileSteps projectName language installJsonwebtoken addDatabase).length =
      2 + (if language = some "TypeScript" then 1 else 0) +
        (if addDatabase = some "MongoDB" then 2 else 0) := by
  unfold fileSteps
  by_cases hl : language = some "TypeScript" <;> by_cases hd : addDatabase = some "MongoDB" <;>
    simp [hl, hd]


theorem createFiles_recordCall (fs : FileWriter) (projectName : String)
    (language installJsonwebtoken addDatabase : JsArg) (w : World) :
    createFiles fs projectName recordCall language installJsonwebtoken addDatabase w =
        (.ok (), w.emit
          ((fileSteps projectName language installJsonwebtoken addDatabase).flatMap FileStep.events
            ++ [.consoleLog "Project generated successfully!"])) ∨
    ∃ pre s post e,
      fileSteps projectName language installJsonwebtoken addDatabase = pre ++ s :: post ∧
      createFiles fs projectName recordCall language installJsonwebtoken addDatabase w =
        (.error e, w.emit (pre.flatMap FileStep.events ++
          [.createFile s.path s.content (some e),
           .consoleError ("Error creating files: " ++ e.rendered)])) := by
  rcases createFiles_outcome fs projectName recordCall recorded recordCall_run
    language installJsonwebtoken addDatabase w with h | ⟨pre, s, post, e, hs, h⟩
  · left
    rw [h, foldl_stepDone_recorded, emit_emit]
  · right
    exact ⟨pre, s, post, e, hs, by rw [h, foldl_stepDone_recorded, emit_emit]⟩

theorem writesOf_events (steps : List FileStep) :
    writesOf (steps.flatMap FileStep.events) = steps.map FileStep.written := by
  induction steps with
  | nil => rfl
  | cons s rest ih =>
    simp only [writesOf] at ih
    simp [writesOf, List.flatMap_cons, FileStep.events, Event.isCreateFile, FileStep.written, ih]

theorem count_callbackRan_events (steps : List FileStep) :
    (steps.flatMap FileStep.events).count .callbackRan = steps.length := by
  induction steps with
  | nil => rfl
  | cons s rest ih =>
    simp [List.flatMap_cons, FileStep.events, ih]

theorem writeOrCallback_events (steps : List FileStep) :
    (steps.flatMap FileStep.events).filter Event.isWriteOrCallback =
      (steps.map FileStep.written).flatMap fun ev => [ev, .callbackRan] := by
  induction steps with
  | nil => rfl
  | cons s rest ih =>
    simp [List.flatMap_cons, FileStep.events, Event.isWriteOrCallback, Event.isCreateFile,
      FileStep.written, ih]

theorem createFiles_recordCall_ok (fs : FileWriter) (projectName : String)
    (language installJsonwebtoken addDatabase : JsArg) (w : World)
    (hsucc : ∀ ev ∈ runEvents
      (createFiles fs projectName recordCall language installJsonwebtoken addDatabase) w,
      ev.isFailedWrite = false) :
    createFiles fs projectName recordCall language installJsonwebtoken addDatabase w =
        (.ok (), w.emit
          ((fileSteps projectName language installJsonwebtoken addDatabase).flatMap FileStep.events
            ++ [.consoleLog "Project generated successfully!"])) := by
  rcases createFiles_recordCall fs projectName language installJsonwebtoken addDatabase w
    with h | ⟨pre, s, post, e, -, h⟩
  · exact h
  · exfalso
    rw [runEvents_of_emit _ _ _ _ h] at hsucc
    have := hsucc (.createFile s.path s.content (some e)) (by simp)
    simp [Event.isFailedWrite] at this


/-! ## The file emitter: what it writes and when it calls back -/

/-- C1: for every project name and every `language`, `installJsonwebtoken` and
`addDatabase`, a run of `createFiles` in which no write fails ends normally, performs exactly
`2 + (1 if language is TypeScript) + (2 if addDatabase is MongoDB)` writes and calls the
progress callback as many times; the writes and the callback calls alternate, each call
coming right after the write it reports. -/
theorem createFiles_write_count (fs : FileWriter) (projectName : String)
    (language installJsonwebtoken addDatabase : JsArg) (w : World)
    (hsucc : ∀ ev ∈ runEvents
      (createFiles fs projectName recordCall language installJsonwebtoken addDatabase) w,
      ev.isFailedWrite = false) :
    (createFiles fs projectName recordCall language installJsonwebtoken addDatabase w).1 = .ok () ∧
    (writesOf (runEvents
      (createFiles fs projectName recordCall language installJsonwebtoken addDatabase) w)).length =
      2 + (if language = some "TypeScript" then 1 else 0) +
        (if addDatabase = some "MongoDB" then 2 else 0) ∧
    (runEvents (createFiles fs projectName recordCall language installJsonwebtoken addDatabase)
      w).count .callbackRan =
      2 + (if language = some "TypeScript" then 1 else 0) +
        (if addDatabase = some "MongoDB" then 2 else 0) ∧
    (runEvents (createFiles fs projectName recordCall language installJsonwebtoken addDatabase)
      w).filter Event.isWriteOrCallback =
      (writesOf (runEvents
        (createFiles fs projectName recordCall language installJsonwebtoken addDatabase) w)).flatMap
        fun ev => [ev, .callbackRan] := by
  have h := createFiles_recordCall_ok fs projectName language installJsonwebtoken addDatabase w hsucc
  have hev := runEvents_of_emit _ _ _ _ h
  rw [hev]
  have hw : writesOf ((fileSteps projectName language installJsonwebtoken addDatabase).flatMap
      FileStep.events ++ [.consoleLog "Project generated successfully!"]) =
      (fileSteps projectName language installJsonwebtoken addDatabase).map FileStep.written := by
    have := writesOf_events (fileSteps projectName language installJsonwebtoken addDatabase)
    simp only [writesOf] at this ⊢
    rw [List.filter_append, this]
    simp [Event.isCreateFile]
  refine ⟨by rw [h], ?_, ?_, ?_⟩
  · rw [hw, List.length_map, fileSteps_length]
  · rw [List.count_append, count_callbackRan_events, fileSteps_length]
    simp
  · rw [hw, List.filter_append, writeOrCallback_events]
    simp [Event.isWriteOrCallback, Event.isCreateFile]

/-- C1 at two option sets: 2 files for JavaScript without a database, 5 files for
TypeScript with MongoDB. -/
theorem createFiles_write_count_witness :
    (writesOf (runEvents (createFiles succeedingWriter "demo" recordCall
      (some "JavaScript") none none) World.start)).length = 2 + 0 + 0 ∧
    (writesOf (runEvents (createFiles succeedingWriter "demo" recordCall
      (some "TypeScript") (some "JWT") (some "MongoDB")) World.start)).length = 2 + 1 + 2 :=
  ⟨(createFiles_write_count succeedingWriter "demo" (some "JavaScript") none none World.start
      (by decide)).2.1,
   (createFiles_write_count succeedingWriter "demo" (some "TypeScript") (some "JWT")
      (some "MongoDB") World.start (by decide)).2.1⟩

/-- C2: a run of `createFiles` in which no write fails writes, in this order and nothing
else: `src/server.ts` with the TypeScript template if `language` is TypeScript and
`src/server.js` with the JavaScript template otherwise; then `tsconfig.json` exactly when
`language` is TypeScript; then `src/configs/db.js` and `src/models/userModel.js` exactly when
`addDatabase` is MongoDB; and last `readme.md` with one constant content. -/
theorem createFiles_files_in_order (fs : FileWriter) (projectName : String)
    (language installJsonwebtoken addDatabase : JsArg) (w : World)
    (hsucc : ∀ ev ∈ runEvents
      (createFiles fs projectName recordCall language installJsonwebtoken addDatabase) w,
      ev.isFailedWrite = false) :
    writesOf (runEvents
      (createFiles fs projectName recordCall language installJsonwebtoken addDatabase) w) =
      [if language = some "TypeScript" then
          .createFile (projectName ++ "/src/server.ts") (tsBoilerplate installJsonwebtoken) none
        else
          .createFile (projectName ++ "/src/server.js")
            (boilerplateServerCode installJsonwebtoken addDatabase) none] ++
      (if language = some "TypeScript" then
          [.createFile (projectName ++ "/tsconfig.json") tsConfig none]
        else []) ++
      (if addDatabase = some "MongoDB" then
          [.createFile (projectName ++ "/src/configs/db.js") (dbConfig language) none,
           .createFile (projectName ++ "/src/models/userModel.js") (userModel language) none]
        else []) ++
      [.createFile (projectName ++ "/readme.md")
        "# Project created using express-app-generator" none] := by
  have h := createFiles_recordCall_ok fs projectName language installJsonwebtoken addDatabase w hsucc
  rw [runEvents_of_emit _ _ _ _ h]
  have := writesOf_events (fileSteps projectName language installJsonwebtoken addDatabase)
  simp only [writesOf] at this ⊢
  rw [List.filter_append, this]
  unfold fileSteps
  by_cases hl : language = some "TypeScript" <;> by_cases hd : addDatabase = some "MongoDB" <;>
    simp [hl, hd, Event.isCreateFile, FileStep.written, String.append_assoc]


set_option maxRecDepth 100000 in
/-- C2 for the project `api` with TypeScript, JWT and MongoDB. -/
theorem createFiles_files_in_order_witness :
    writesOf (runEvents (createFiles succeedingWriter "api" recordCall (some "TypeScript")
      (some "JWT") (some "MongoDB")) World.start) =
      [.createFile "api/src/server.ts" (tsBoilerplate (some "JWT")) none,
       .createFile "api/tsconfig.json" tsConfig none,
       .createFile "api/src/configs/db.js" (dbConfig (some "TypeScript")) none,
       .createFile "api/src/models/userModel.js" (userModel (some "TypeScript")) none,
       .createFile "api/readme.md" "# Project created using express-app-generator" none] :=
  createFiles_files_in_order succeedingWriter "api" (some "TypeScript") (some "JWT")
    (some "MongoDB") World.start (by decide)

theorem getElem?_written_append {pre : List FileStep} {x y : Event} {j : ℕ}
    (hy : y.isFailedWrite = true)
    (h : (pre.map FileStep.written ++ [x])[j]? = some y) : j = pre.length ∧ y = x := by
  rcases Nat.lt_trichotomy j pre.length with hlt | heq | hgt
  · exfalso
    rw [List.getElem?_append_left (by simpa using hlt)] at h
    have hm := List.getElem?_mem h
    simp only [List.mem_map] at hm
    obtain ⟨s, -, rfl⟩ := hm
    simp [FileStep.written, Event.isFailedWrite] at hy
  · subst heq
    rw [List.getElem?_append_right (by simp)] at h
    simp at h
    exact ⟨rfl, h.symm⟩
  · exfalso
    obtain ⟨hlen, -⟩ := List.getElem?_eq_some.mp h
    simp at hlen
    omega

theorem paths_written (steps : List FileStep) :
    (steps.map FileStep.written).filterMap Event.path? = steps.map FileStep.path := by
  induction steps with
  | nil => rfl
  | cons s rest ih => simp [FileStep.written, Event.path?] at ih ⊢; exact ih

/-- C3: if write number `k` of a run of `createFiles` fails with the error `e`, then
`createFiles` fails with `e`, write `k` is the last call of the file writer, the progress
callback was called `k - 1` times, the `k - 1` writes before it succeeded, no path was written
twice, and the run did nothing but call the file writer, print and call the callback (it
deleted nothing). -/
theorem createFiles_write_failure (fs : FileWriter) (projectName : String)
    (language installJsonwebtoken addDatabase : JsArg) (w : World)
    (k : ℕ) (path content : String) (e : JsError) (hk : 0 < k)
    (hfail : (writesOf (runEvents
      (createFiles fs projectName recordCall language installJsonwebtoken addDatabase) w))[k - 1]?
        = some (.createFile path content (some e))) :
    (createFiles fs projectName recordCall language installJsonwebtoken addDatabase w).1 = .error e ∧
    (writesOf (runEvents
      (createFiles fs projectName recordCall language installJsonwebtoken addDatabase) w)).length
        = k ∧
    (runEvents (createFiles fs projectName recordCall language installJsonwebtoken addDatabase)
      w).count .callbackRan = k - 1 ∧
    (∀ ev ∈ (writesOf (runEvents
      (createFiles fs projectName recordCall language installJsonwebtoken addDatabase) w)).take
        (k - 1), ev.isFailedWrite = false) ∧
    ((writesOf (runEvents
      (createFiles fs projectName recordCall language installJsonwebtoken addDatabase)
        w)).filterMap Event.path?).Nodup ∧
    (∀ ev ∈ runEvents
      (createFiles fs projectName recordCall language installJsonwebtoken addDatabase) w,
      ev.isCreateFile = true ∨ ev.isConsole = true ∨ ev = .callbackRan) := by
  rcases createFiles_recordCall fs projectName language installJsonwebtoken addDatabase w
    with h | ⟨pre, s, post, e', hsplit, h⟩
  · exfalso
    rw [runEvents_of_emit _ _ _ _ h] at hfail
    have hw : writesOf ((fileSteps projectName language installJsonwebtoken addDatabase).flatMap
        FileStep.events ++ [.consoleLog "Project generated successfully!"]) =
        (fileSteps projectName language installJsonwebtoken addDatabase).map FileStep.written := by
      have := writesOf_events (fileSteps projectName language installJsonwebtoken addDatabase)
      simp only [writesOf] at this ⊢
      rw [List.filter_append, this]
      simp [Event.isCreateFile]
    rw [hw] at hfail
    have hm := List.getElem?_mem hfail
    simp only [List.mem_map] at hm
    obtain ⟨s, -, hs⟩ := hm
    simp [FileStep.written] at hs
  · have hev := runEvents_of_emit _ _ _ _ h
    have hw : writesOf (pre.flatMap FileStep.events ++
        [.createFile s.path s.content (some e'),
         .consoleError ("Error creating files: " ++ e'.rendered)]) =
        pre.map FileStep.written ++ [.createFile s.path s.content (some e')] := by
      have := writesOf_events pre
      simp only [writesOf] at this ⊢
      rw [List.filter_append, this]
      simp [Event.isCreateFile]
    rw [hev] at hfail ⊢
    rw [hw] at hfail ⊢
    obtain ⟨hj, hy⟩ := getElem?_written_append (y := .createFile path content (some e)) rfl hfail
    have he : e = e' := by
      simp only [Event.createFile.injEq] at hy
      exact Option.some.inj hy.2.2
    subst he
    have hk' : k = pre.length + 1 := by omega
    refine ⟨by rw [h], by simp [hk'], ?_, ?_, ?_, ?_⟩
    · rw [List.count_append, count_callbackRan_events, hj]
      simp
    · intro ev hev'
      rw [hj, List.take_left' (by simp)] at hev'
      simp only [List.mem_map] at hev'
      obtain ⟨t, -, rfl⟩ := hev'
      rfl
    · have hnd := fileSteps_paths_nodup projectName language installJsonwebtoken addDatabase
      rw [hsplit] at hnd
      have : (pre.map FileStep.written ++ [Event.createFile s.path s.content (some e)]).filterMap
          Event.path? = (pre ++ [s]).map FileStep.path := by
        rw [List.filterMap_append, paths_written]
        simp [Event.path?]
      rw [this]
      have hsub : ((pre ++ [s]).map FileStep.path).Sublist ((pre ++ s :: post).map FileStep.path) := by
        apply List.Sublist.map
        simp
      exact hnd.sublist hsub
    · intro ev hev'
      simp only [List.mem_append, List.mem_flatMap, FileStep.events, List.mem_cons,
        List.mem_singleton, List.not_mem_nil, or_false] at hev'
      rcases hev' with ⟨t, -, rfl | rfl | rfl⟩ | rfl | rfl <;> simp [Event.isCreateFile, Event.isConsole]

set_option maxRecDepth 100000 in
/-- C3 for TypeScript with MongoDB when the third write, that of `db.js`, fails. -/
theorem createFiles_write_failure_witness :
    (createFiles (failingAt 2 ⟨"EACCES"⟩) "api" recordCall (some "TypeScript") (some "JWT")
      (some "MongoDB") World.start).1 = .error ⟨"EACCES"⟩ ∧
    (writesOf (runEvents (createFiles (failingAt 2 ⟨"EACCES"⟩) "api" recordCall
      (some "TypeScript") (some "JWT") (some "MongoDB")) World.start)).length = 3 ∧
    (runEvents (createFiles (failingAt 2 ⟨"EACCES"⟩) "api" recordCall
      (some "TypeScript") (some "JWT") (some "MongoDB")) World.start).count .callbackRan = 3 - 1 :=
  have h := createFiles_write_failure (failingAt 2 ⟨"EACCES"⟩) "api" (some "TypeScript")
    (some "JWT") (some "MongoDB") World.start 3 "api/src/configs/db.js"
    (dbConfig (some "TypeScript")) ⟨"EACCES"⟩ (by decide) (by decide)
  ⟨h.1, h.2.1, h.2.2.1⟩

/-! ## The orchestrator: stages that call `updateProgress` -/

theorem updateProgress_ok (w : World) : updateProgress w = (.ok (), progressed w) := by
  by_cases h : percentageOf (w.completedSteps + 1) = w.lastPercentage <;>
    simp [progressed, updateProgress, h]

theorem progressed_completedSteps (w : World) :
    (progressed w).completedSteps = w.completedSteps + 1 := by
  by_cases h : percentageOf (w.completedSteps + 1) = w.lastPercentage <;>
    simp [progressed, updateProgress, h]

theorem progressed_trace (w : World) :
    ∃ ms, (progressed w).trace = w.trace ++ ms ∧ visible ms = [] ∧
      (FreshPercentage w → percentagesIn ms = [percentageOf (w.completedSteps + 1)]) := by
  by_cases h : percentageOf (w.completedSteps + 1) = w.lastPercentage
  · refine ⟨[], ?_, rfl, ?_⟩
    · simp [progressed, updateProgress, h]
    · intro hf
      unfold FreshPercentage at hf
      omega
  · refine ⟨[.progressMarker (percentageOf (w.completedSteps + 1))], ?_, rfl, fun _ => rfl⟩
    simp [progressed, updateProgress, h]

theorem progressed_fresh (w : World) : FreshPercentage (progressed w) :=
  updateProgress_fresh w

theorem playSteps_updateProgress (steps : List StageStep) (w : World) :
    playSteps updateProgress steps w = (.ok (), afterSteps steps w) := by
  induction steps generalizing w with
  | nil => rfl
  | cons s rest ih =>
    cases s with
    | work label =>
      have hp : perform (.stageWork label) w = (.ok (), w.emit [.stageWork label]) := rfl
      rw [playSteps, run_bind_ok hp, ih]
      rfl
    | tick =>
      rw [playSteps, run_bind_ok (updateProgress_ok w), ih]
      rfl

theorem Stage.call_updateProgress (stage : Stage) (w : World) :
    stage.call updateProgress w =
      (match stage.failure with
        | none => .ok ()
        | some e => .error e, afterSteps stage.steps w) := by
  unfold Stage.call
  rw [run_bind_ok (playSteps_updateProgress stage.steps w)]
  cases stage.failure <;> rfl

theorem visible_append (xs ys : List Event) : visible (xs ++ ys) = visible xs ++ visible ys :=
  List.filter_append _ _

theorem visible_cons (ev : Event) (es : List Event) (h : ev.isMarker = false) :
    visible (ev :: es) = ev :: visible es := by
  simp [visible, h]

theorem percentagesIn_append (xs ys : List Event) :
    percentagesIn (xs ++ ys) = percentagesIn xs ++ percentagesIn ys :=
  List.filterMap_append _ _ _

theorem afterSteps_spec (steps : List StageStep) (w : World) :
    ∃ es, (afterSteps steps w).trace = w.trace ++ es ∧
      visible es = workOf steps ∧
      (afterSteps steps w).completedSteps = w.completedSteps + steps.count .tick ∧
      (FreshPercentage w →
        percentagesIn es = (List.range' (w.completedSteps + 1) (steps.count .tick)).map percentageOf ∧
        FreshPercentage (afterSteps steps w)) := by
  induction steps generalizing w with
  | nil => exact ⟨[], by simp [afterSteps], rfl, rfl, fun h => ⟨rfl, h⟩⟩
  | cons s rest ih =>
    cases s with
    | work label =>
      obtain ⟨es, ht, hv, hc, hf⟩ := ih (w.emit [.stageWork label])
      refine ⟨.stageWork label :: es, ?_, ?_, ?_, ?_⟩
      · rw [afterSteps, ht]; simp [World.emit]
      · rw [visible_cons (.stageWork label) es rfl, hv]
        rfl
      · rw [afterSteps, hc]; simp [World.emit]
      · intro h
        have := hf h
        exact this
    | tick =>
      obtain ⟨es, ht, hv, hc, hf⟩ := ih (progressed w)
      obtain ⟨ms, hmt, hmv, hmp⟩ := progressed_trace w
      refine ⟨ms ++ es, ?_, ?_, ?_, ?_⟩
      · rw [afterSteps, ht, hmt, List.append_assoc]
      · rw [visible_append, hmv, hv]
        rfl
      · rw [afterSteps, hc, progressed_completedSteps]
        simp; omega
      · intro h
        obtain ⟨hp, hfr⟩ := hf (progressed_fresh w)
        refine ⟨?_, hfr⟩
        rw [progressed_completedSteps] at hp
        rw [percentagesIn_append, hmp h, hp]
        simp [List.range'_succ]


theorem foldl_stepDone_progressed (steps : List FileStep) (w : World) :
    ∃ es, (steps.foldl (stepDone progressed) w).trace = w.trace ++ es ∧
      visible es = steps.flatMap FileStep.shown ∧
      (steps.foldl (stepDone progressed) w).completedSteps = w.completedSteps + steps.length ∧
      (FreshPercentage w →
        percentagesIn es = (List.range' (w.completedSteps + 1) steps.length).map percentageOf) := by
  induction steps generalizing w with
  | nil => exact ⟨[], by simp, rfl, rfl, fun _ => rfl⟩
  | cons s rest ih =>
    obtain ⟨es, ht, hv, hc, hf⟩ := ih (stepDone progressed w s)
    obtain ⟨ms, hmt, hmv, hmp⟩ := progressed_trace (w.emit (FileStep.shown s))
    refine ⟨FileStep.shown s ++ ms ++ es, ?_, ?_, ?_, ?_⟩
    · rw [List.foldl_cons, ht]
      show (progressed (w.emit (FileStep.shown s))).trace ++ es = _
      rw [hmt]
      simp [World.emit]
    · rw [visible_append, visible_append, hmv, hv, List.flatMap_cons]
      simp [visible, FileStep.shown, Event.isMarker]
    · rw [List.foldl_cons, hc]
      show (progressed (w.emit (FileStep.shown s))).completedSteps + _ = _
      rw [progressed_completedSteps]
      simp [World.emit]; omega
    · intro h
      have h1 : FreshPercentage (w.emit (FileStep.shown s)) := h
      have hp := hf (progressed_fresh _)
      have hcs : (stepDone progressed w s).completedSteps = w.completedSteps + 1 :=
        progressed_completedSteps _
      rw [hcs] at hp
      rw [percentagesIn_append, percentagesIn_append, hmp h1, hp]
      simp [List.range'_succ, percentagesIn, FileStep.shown, World.emit]

/-! ## The orchestrator: the three ways a run can go -/

theorem onData_eq (fs : FileWriter) (initializeProject createDirectories : String → Stage)
    (data : String) :
    onData fs initializeProject createDirectories data =
      (declareCounters >>= fun _ =>
        Js.tryCatch
          ((initializeProject (trim data)).call updateProgress >>= fun _ =>
            (createDirectories (trim data)).call updateProgress >>= fun _ =>
              createFiles fs (trim data) updateProgress none none none >>= fun _ =>
                perform successLine)
          (fun error =>
            perform (.consoleError ("Error generating project: " ++ error.rendered)) >>= fun _ =>
              perform (.processExit 1))) := rfl

theorem onData_init_fails (fs : FileWriter) (initializeProject createDirectories : String → Stage)
    (data : String) (w : World) (e : JsError)
    (hi : (initializeProject (trim data)).failure = some e) :
    onData fs initializeProject createDirectories data w =
      (.ok (), (afterSteps (initializeProject (trim data)).steps w.reset).emit (failureReport e)) := by
  have h0 : declareCounters w = (.ok (), w.reset) := rfl
  rw [onData_eq, run_bind_ok h0]
  unfold Js.tryCatch
  have h1 := Stage.call_updateProgress (initializeProject (trim data)) w.reset
  rw [hi] at h1
  rw [run_bind_error h1]
  simp only [run_bind, perform, emit_emit]
  rfl

theorem onData_dirs_fails (fs : FileWriter) (initializeProject createDirectories : String → Stage)
    (data : String) (w : World) (e : JsError)
    (hi : (initializeProject (trim data)).failure = none)
    (hd : (createDirectories (trim data)).failure = some e) :
    onData fs initializeProject createDirectories data w =
      (.ok (), (afterSteps (createDirectories (trim data)).steps
        (afterSteps (initializeProject (trim data)).steps w.reset)).emit (failureReport e)) := by
  have h0 : declareCounters w = (.ok (), w.reset) := rfl
  rw [onData_eq, run_bind_ok h0]
  unfold Js.tryCatch
  have h1 := Stage.call_updateProgress (initializeProject (trim data)) w.reset
  rw [hi] at h1
  have h2 := Stage.call_updateProgress (createDirectories (trim data))
    (afterSteps (initializeProject (trim data)).steps w.reset)
  rw [hd] at h2
  rw [run_bind_ok h1, run_bind_error h2]
  simp only [run_bind, perform, emit_emit]
  rfl

theorem onData_files (fs : FileWriter) (initializeProject createDirectories : String → Stage)
    (data : String) (w : World)
    (hi : (initializeProject (trim data)).failure = none)
    (hd : (createDirectories (trim data)).failure = none) :
    onData fs initializeProject createDirectories data w =
      match createFiles fs (trim data) updateProgress none none none
          (afterSteps (createDirectories (trim data)).steps
            (afterSteps (initializeProject (trim data)).steps w.reset)) with
      | (.ok _, w3) => (.ok (), w3.emit [successLine])
      | (.error e, w3) => (.ok (), w3.emit (failureReport e)) := by
  have h0 : declareCounters w = (.ok (), w.reset) := rfl
  rw [onData_eq, run_bind_ok h0]
  unfold Js.tryCatch
  have h1 := Stage.call_updateProgress (initializeProject (trim data)) w.reset
  rw [hi] at h1
  have h2 := Stage.call_updateProgress (createDirectories (trim data))
    (afterSteps (initializeProject (trim data)).steps w.reset)
  rw [hd] at h2
  rw [run_bind_ok h1, run_bind_ok h2]
  rcases hc : createFiles fs (trim data) updateProgress none none none
      (afterSteps (createDirectories (trim data)).steps
        (afterSteps (initializeProject (trim data)).steps w.reset)) with ⟨_ | _, w3⟩
  · rw [run_bind_error hc]
    simp only [run_bind, perform, emit_emit]
    rfl
  · rw [run_bind_ok hc]
    rfl


theorem runEvents_of_trace {α : Type} (m : Js α) (w : World) (es : List Event)
    (h : (m w).2.trace = w.trace ++ es) : runEvents m w = es := by
  simp [runEvents, h]

theorem reset_fresh (w : World) : FreshPercentage w.reset := by
  show (-1 : ℤ) < percentageOf (0 + 1)
  rw [percentageOf_eq]
  decide

theorem onData_events_init_fails (fs : FileWriter)
    (initializeProject createDirectories : String → Stage) (data : String) (w : World)
    (e : JsError) (hi : (initializeProject (trim data)).failure = some e) :
    ∃ es, runEvents (onData fs initializeProject createDirectories data) w = es ++ failureReport e ∧
      visible es = (initializeProject (trim data)).work ∧
      (onData fs initializeProject createDirectories data w).2.completedSteps =
        (initializeProject (trim data)).ticks := by
  obtain ⟨es, ht, hv, hc, -⟩ := afterSteps_spec (initializeProject (trim data)).steps w.reset
  refine ⟨es, ?_, hv, ?_⟩
  · apply runEvents_of_trace
    rw [onData_init_fails fs initializeProject createDirectories data w e hi]
    show (afterSteps _ _).trace ++ _ = _
    rw [ht]
    simp [World.reset]
  · rw [onData_init_fails fs initializeProject createDirectories data w e hi]
    show (afterSteps _ _).completedSteps = _
    rw [hc]
    simp [World.reset, Stage.ticks]

theorem onData_events_dirs_fails (fs : FileWriter)
    (initializeProject createDirectories : String → Stage) (data : String) (w : World)
    (e : JsError) (hi : (initializeProject (trim data)).failure = none)
    (hd : (createDirectories (trim data)).failure = some e) :
    ∃ es1 es2, runEvents (onData fs initializeProject createDirectories data) w =
        es1 ++ es2 ++ failureReport e ∧
      visible es1 = (initializeProject (trim data)).work ∧
      visible es2 = (createDirectories (trim data)).work ∧
      (onData fs initializeProject createDirectories data w).2.completedSteps =
        (initializeProject (trim data)).ticks + (createDirectories (trim data)).ticks := by
  obtain ⟨es1, ht1, hv1, hc1, -⟩ := afterSteps_spec (initializeProject (trim data)).steps w.reset
  obtain ⟨es2, ht2, hv2, hc2, -⟩ := afterSteps_spec (createDirectories (trim data)).steps
    (afterSteps (initializeProject (trim data)).steps w.reset)
  refine ⟨es1, es2, ?_, hv1, hv2, ?_⟩
  · apply runEvents_of_trace
    rw [onData_dirs_fails fs initializeProject createDirectories data w e hi hd]
    show (afterSteps _ _).trace ++ _ = _
    rw [ht2, ht1]
    simp [World.reset]
  · rw [onData_dirs_fails fs initializeProject createDirectories data w e hi hd]
    show (afterSteps _ _).completedSteps = _
    rw [hc2, hc1]
    simp [World.reset, Stage.ticks]

theorem onData_events_files (fs : FileWriter)
    (initializeProject createDirectories : String → Stage) (data : String) (w : World)
    (hi : (initializeProject (trim data)).failure = none)
    (hd : (createDirectories (trim data)).failure = none) :
    ∃ es1 es2 es3,
      visible es1 = (initializeProject (trim data)).work ∧
      visible es2 = (createDirectories (trim data)).work ∧
      percentagesIn (es1 ++ es2) = (List.range' 1 ((initializeProject (trim data)).ticks +
        (createDirectories (trim data)).ticks)).map percentageOf ∧
      ((runEvents (onData fs initializeProject createDirectories data) w =
          es1 ++ es2 ++ es3 ++ [.consoleLog "Project generated successfully!", successLine] ∧
        visible es3 = (fileSteps (trim data) none none none).flatMap FileStep.shown ∧
        percentagesIn es3 = (List.range' ((initializeProject (trim data)).ticks +
          (createDirectories (trim data)).ticks + 1)
            (fileSteps (trim data) none none none).length).map percentageOf ∧
        (onData fs initializeProject createDirectories data w).2.completedSteps =
          (initializeProject (trim data)).ticks + (createDirectories (trim data)).ticks +
            (fileSteps (trim data) none none none).length) ∨
       ∃ pre s post e, fileSteps (trim data) none none none = pre ++ s :: post ∧
        runEvents (onData fs initializeProject createDirectories data) w =
          es1 ++ es2 ++ es3 ++ [.createFile s.path s.content (some e),
            .consoleError ("Error creating files: " ++ e.rendered)] ++ failureReport e ∧
        visible es3 = pre.flatMap FileStep.shown) := by
  obtain ⟨es1, ht1, hv1, hc1, hf1⟩ := afterSteps_spec (initializeProject (trim data)).steps w.reset
  obtain ⟨hp1, hfr1⟩ := hf1 (reset_fresh w)
  obtain ⟨es2, ht2, hv2, hc2, hf2⟩ := afterSteps_spec (createDirectories (trim data)).steps
    (afterSteps (initializeProject (trim data)).steps w.reset)
  obtain ⟨hp2, hfr2⟩ := hf2 hfr1
  have hcs : (afterSteps (createDirectories (trim data)).steps
      (afterSteps (initializeProject (trim data)).steps w.reset)).completedSteps =
      (initializeProject (trim data)).ticks + (createDirectories (trim data)).ticks := by
    rw [hc2, hc1]; simp [World.reset, Stage.ticks]
  have hp12 : percentagesIn (es1 ++ es2) = (List.range' 1 ((initializeProject (trim data)).ticks +
      (createDirectories (trim data)).ticks)).map percentageOf := by
    rw [percentagesIn_append, hp1, hp2, hc1]
    simp only [World.reset, Stage.ticks, Nat.zero_add]
    rw [← List.map_append, Nat.add_comm _ 1, List.range'_append_1, Nat.add_comm]
  have hrun := onData_files fs initializeProject createDirectories data w hi hd
  rcases createFiles_outcome fs (trim data) updateProgress progressed updateProgress_ok
    none none none (afterSteps (createDirectories (trim data)).steps
      (afterSteps (initializeProject (trim data)).steps w.reset)) with h | ⟨pre, s, post, e, hs, h⟩
  · rw [h] at hrun
    obtain ⟨es3, ht3, hv3, hc3, hf3⟩ := foldl_stepDone_progressed (fileSteps (trim data) none none none)
      (afterSteps (createDirectories (trim data)).steps
        (afterSteps (initializeProject (trim data)).steps w.reset))
    refine ⟨es1, es2, es3, hv1, hv2, hp12, Or.inl ⟨?_, hv3, ?_, ?_⟩⟩
    · apply runEvents_of_trace
      rw [hrun]
      simp only [World.emit, ht3, ht2, ht1]
      simp [World.reset]
    · rw [hf3 hfr2, hcs]
    · rw [hrun]
      simp only [World.emit, hc3, hcs]
  · rw [h] at hrun
    obtain ⟨es3, ht3, hv3, -, -⟩ := foldl_stepDone_progressed pre
      (afterSteps (createDirectories (trim data)).steps
        (afterSteps (initializeProject (trim data)).steps w.reset))
    refine ⟨es1, es2, es3, hv1, hv2, hp12, Or.inr ⟨pre, s, post, e, hs, ?_, hv3⟩⟩
    apply runEvents_of_trace
    rw [hrun]
    simp only [World.emit, ht3, ht2, ht1]
    simp [World.reset]


/-! ## The orchestrator: order of the stages and failure -/

theorem mem_visible {ev : Event} {es : List Event} (h : ev.isMarker = false) :
    ev ∈ visible es ↔ ev ∈ es := by
  simp [visible, h]

theorem successLine_not_mem_workOf (steps : List StageStep) : successLine ∉ workOf steps := by
  induction steps with
  | nil => simp [workOf]
  | cons s rest ih =>
    cases s with
    | work label =>
      simp only [workOf, List.mem_cons, not_or]
      exact ⟨by simp [successLine], ih⟩
    | tick => simpa [workOf] using ih

theorem fileSteps_logText (projectName : String)
    (language installJsonwebtoken addDatabase : JsArg) :
    ∀ s ∈ fileSteps projectName language installJsonwebtoken addDatabase,
      Event.consoleLog s.logText ≠ successLine := by
  unfold fileSteps successLine
  by_cases hl : language = some "TypeScript" <;> by_cases hd : addDatabase = some "MongoDB" <;>
    simp [hl, hd]

theorem successLine_not_mem_shown (projectName : String)
    (language installJsonwebtoken addDatabase : JsArg) (steps : List FileStep)
    (hsub : ∀ s ∈ steps, s ∈ fileSteps projectName language installJsonwebtoken addDatabase) :
    successLine ∉ steps.flatMap FileStep.shown := by
  intro hmem
  simp only [List.mem_flatMap, FileStep.shown, List.mem_cons, List.mem_singleton,
    List.not_mem_nil, or_false] at hmem
  obtain ⟨s, hs, h | h⟩ := hmem
  · simp [successLine] at h
  · exact fileSteps_logText projectName language installJsonwebtoken addDatabase s (hsub s hs) h.symm


theorem getLast?_failureReport (es : List Event) (e : JsError) :
    (es ++ failureReport e).getLast? = some (.processExit 1) := by
  simp [failureReport]

theorem successLine_not_mem_of_visible {es vis : List Event} (hv : visible es = vis)
    (h : successLine ∉ vis) : successLine ∉ es := by
  have hm : successLine.isMarker = false := rfl
  rw [← hv, mem_visible hm] at h
  exact h

/-- C5: the listener runs `initializeProject`, `createDirectories` and `createFiles` in this
order, each after the one before it succeeded.  When `initializeProject` fails, the run shows
its work, then the error report and `process.exit(1)`, and is the same whatever
`createDirectories` and the file writer would do; when `createDirectories` fails, the run shows
the work of both, then the report and the exit, and is the same whatever the file writer would
do; when both succeed, `createFiles` runs after them, and either it goes through and the
success message is the last event, or one of its writes fails and the run ends with the report
and the exit.  In each failure the success message is not printed and the last event is
`process.exit(1)`. -/
theorem onData_stages_in_order (fs : FileWriter)
    (initializeProject createDirectories : String → Stage) (data : String) (w : World) :
    (∀ e, (initializeProject (trim data)).failure = some e →
      visible (runEvents (onData fs initializeProject createDirectories data) w) =
        (initializeProject (trim data)).work ++ failureReport e ∧
      (∀ fs' createDirectories', onData fs' initializeProject createDirectories' data w =
        onData fs initializeProject createDirectories data w) ∧
      successLine ∉ runEvents (onData fs initializeProject createDirectories data) w ∧
      (runEvents (onData fs initializeProject createDirectories data) w).getLast? =
        some (.processExit 1)) ∧
    (∀ e, (initializeProject (trim data)).failure = none →
      (createDirectories (trim data)).failure = some e →
      visible (runEvents (onData fs initializeProject createDirectories data) w) =
        (initializeProject (trim data)).work ++ (createDirectories (trim data)).work ++
          failureReport e ∧
      (∀ fs', onData fs' initializeProject createDirectories data w =
        onData fs initializeProject createDirectories data w) ∧
      successLine ∉ runEvents (onData fs initializeProject createDirectories data) w ∧
      (runEvents (onData fs initializeProject createDirectories data) w).getLast? =
        some (.processExit 1)) ∧
    ((initializeProject (trim data)).failure = none →
      (createDirectories (trim data)).failure = none →
      visible (runEvents (onData fs initializeProject createDirectories data) w) =
        (initializeProject (trim data)).work ++ (createDirectories (trim data)).work ++
          (fileSteps (trim data) none none none).flatMap FileStep.shown ++
          [.consoleLog "Project generated successfully!", successLine] ∨
      ∃ pre s post e, fileSteps (trim data) none none none = pre ++ s :: post ∧
        visible (runEvents (onData fs initializeProject createDirectories data) w) =
          (initializeProject (trim data)).work ++ (createDirectories (trim data)).work ++
            pre.flatMap FileStep.shown ++
            [.createFile s.path s.content (some e),
             .consoleError ("Error creating files: " ++ e.rendered)] ++ failureReport e ∧
        successLine ∉ runEvents (onData fs initializeProject createDirectories data) w ∧
        (runEvents (onData fs initializeProject createDirectories data) w).getLast? =
          some (.processExit 1)) := by
  refine ⟨?_, ?_, ?_⟩
  · intro e hi
    obtain ⟨es, hev, hv, -⟩ :=
      onData_events_init_fails fs initializeProject createDirectories data w e hi
    have hvis : visible (runEvents (onData fs initializeProject createDirectories data) w) =
        (initializeProject (trim data)).work ++ failureReport e := by
      rw [hev, visible_append, hv]; rfl
    refine ⟨hvis, ?_, ?_, ?_⟩
    · intro fs' dirs'
      rw [onData_init_fails fs initializeProject createDirectories data w e hi,
        onData_init_fails fs' initializeProject dirs' data w e hi]
    · apply successLine_not_mem_of_visible hvis
      simp only [List.mem_append, not_or]
      exact ⟨successLine_not_mem_workOf _, by simp [failureReport, successLine]⟩
    · rw [hev]; exact getLast?_failureReport _ _
  · intro e hi hd
    obtain ⟨es1, es2, hev, hv1, hv2, -⟩ :=
      onData_events_dirs_fails fs initializeProject createDirectories data w e hi hd
    have hvis : visible (runEvents (onData fs initializeProject createDirectories data) w) =
        (initializeProject (trim data)).work ++ (createDirectories (trim data)).work ++
          failureReport e := by
      rw [hev, visible_append, visible_append, hv1, hv2]; rfl
    refine ⟨hvis, ?_, ?_, ?_⟩
    · intro fs'
      rw [onData_dirs_fails fs initializeProject createDirectories data w e hi hd,
        onData_dirs_fails fs' initializeProject createDirectories data w e hi hd]
    · apply successLine_not_mem_of_visible hvis
      simp only [List.mem_append, not_or]
      exact ⟨⟨successLine_not_mem_workOf _, successLine_not_mem_workOf _⟩,
        by simp [failureReport, successLine]⟩
    · rw [hev]; exact getLast?_failureReport _ _
  · intro hi hd
    obtain ⟨es1, es2, es3, hv1, hv2, -, h | ⟨pre, s, post, e, hs, hev, hv3⟩⟩ :=
      onData_events_files fs initializeProject createDirectories data w hi hd
    · left
      obtain ⟨hev, hv3, -, -⟩ := h
      rw [hev, visible_append, visible_append, visible_append, hv1, hv2, hv3]
      rfl
    · right
      have hvis : visible (runEvents (onData fs initializeProject createDirectories data) w) =
          (initializeProject (trim data)).work ++ (createDirectories (trim data)).work ++
            pre.flatMap FileStep.shown ++
            [.createFile s.path s.content (some e),
             .consoleError ("Error creating files: " ++ e.rendered)] ++ failureReport e := by
        rw [hev, visible_append, visible_append, visible_append, visible_append, hv1, hv2, hv3]
        rfl
      refine ⟨pre, s, post, e, hs, hvis, ?_, ?_⟩
      · apply successLine_not_mem_of_visible hvis
        simp only [List.mem_append, not_or]
        refine ⟨⟨⟨⟨successLine_not_mem_workOf _, successLine_not_mem_workOf _⟩, ?_⟩, ?_⟩, ?_⟩
        · apply successLine_not_mem_shown (trim data) none none none
          intro t ht
          rw [hs]
          simp [ht]
        · simp [successLine]
        · simp [failureReport, successLine]
      · rw [hev]; exact getLast?_failureReport _ _


/-- C5 for a failing initializer, for a directory builder that fails at its third unit of
work, and for two stages that succeed. -/
theorem onData_stages_in_order_witness :
    (visible (runEvents (onData succeedingWriter failingInitializer sampleDirectories "demo\n")
        World.start) =
      (failingInitializer (trim "demo\n")).work ++ failureReport ⟨"spawn npm ENOENT"⟩) ∧
    (visible (runEvents (onData succeedingWriter sampleInitializer failingDirectories "demo\n")
        World.start) =
      (sampleInitializer (trim "demo\n")).work ++ (failingDirectories (trim "demo\n")).work ++
        failureReport ⟨"EACCES: permission denied, mkdir"⟩ ∧
      ∀ fs', onData fs' sampleInitializer failingDirectories "demo\n" World.start =
        onData succeedingWriter sampleInitializer failingDirectories "demo\n" World.start) ∧
    (visible (runEvents (onData succeedingWriter sampleInitializer sampleDirectories "demo\n")
        World.start) =
      (sampleInitializer (trim "demo\n")).work ++ (sampleDirectories (trim "demo\n")).work ++
        (fileSteps (trim "demo\n") none none none).flatMap FileStep.shown ++
        [.consoleLog "Project generated successfully!", successLine] ∨
      ∃ pre s post e, fileSteps (trim "demo\n") none none none = pre ++ s :: post ∧
        visible (runEvents (onData succeedingWriter sampleInitializer sampleDirectories "demo\n")
            World.start) =
          (sampleInitializer (trim "demo\n")).work ++ (sampleDirectories (trim "demo\n")).work ++
            pre.flatMap FileStep.shown ++
            [.createFile s.path s.content (some e),
             .consoleError ("Error creating files: " ++ e.rendered)] ++ failureReport e ∧
        successLine ∉ runEvents
          (onData succeedingWriter sampleInitializer sampleDirectories "demo\n") World.start ∧
        (runEvents (onData succeedingWriter sampleInitializer sampleDirectories "demo\n")
          World.start).getLast? = some (.processExit 1)) :=
  ⟨((onData_stages_in_order succeedingWriter failingInitializer sampleDirectories "demo\n"
      World.start).1 ⟨"spawn npm ENOENT"⟩ rfl).1,
   ⟨((onData_stages_in_order succeedingWriter sampleInitializer failingDirectories "demo\n"
      World.start).2.1 ⟨"EACCES: permission denied, mkdir"⟩ rfl rfl).1,
    ((onData_stages_in_order succeedingWriter sampleInitializer failingDirectories "demo\n"
      World.start).2.1 ⟨"EACCES: permission denied, mkdir"⟩ rfl rfl).2.1⟩,
   (onData_stages_in_order succeedingWriter sampleInitializer sampleDirectories "demo\n"
      World.start).2.2 rfl rfl⟩

/-! ## The orchestrator: the run of `index.js` as it stands -/

theorem writesOf_visible (es : List Event) : writesOf (visible es) = writesOf es := by
  simp only [writesOf, visible, List.filter_filter]
  congr 1
  funext ev
  cases ev <;> rfl

theorem writesOf_append (xs ys : List Event) : writesOf (xs ++ ys) = writesOf xs ++ writesOf ys :=
  List.filter_append _ _

theorem writesOf_workOf (steps : List StageStep) : writesOf (workOf steps) = [] := by
  induction steps with
  | nil => rfl
  | cons s rest ih =>
    cases s with
    | work label => simpa [workOf, writesOf, Event.isCreateFile] using ih
    | tick => simpa [workOf] using ih

theorem writesOf_shown (steps : List FileStep) :
    writesOf (steps.flatMap FileStep.shown) = steps.map FileStep.written := by
  induction steps with
  | nil => rfl
  | cons s rest ih =>
    simp only [writesOf] at ih
    simp [writesOf, List.flatMap_cons, FileStep.shown, Event.isCreateFile, FileStep.written, ih]

theorem onData_run_ok (fs : FileWriter) (initializeProject createDirectories : String → Stage)
    (data : String) (w : World)
    (hi : (initializeProject (trim data)).failure = none)
    (hd : (createDirectories (trim data)).failure = none)
    (hsucc : ∀ ev ∈ runEvents (onData fs initializeProject createDirectories data) w,
      ev.isFailedWrite = false) :
    writesOf (runEvents (onData fs initializeProject createDirectories data) w) =
      [.createFile (trim data ++ "/src/server.js") (boilerplateServerCode none none) none,
       .createFile (trim data ++ "/readme.md")
         "# Project created using express-app-generator" none] ∧
    (onData fs initializeProject createDirectories data w).2.completedSteps =
      (initializeProject (trim data)).ticks + (createDirectories (trim data)).ticks + 2 ∧
    percentagesIn (runEvents (onData fs initializeProject createDirectories data) w) =
      (List.range' 1 ((initializeProject (trim data)).ticks +
        (createDirectories (trim data)).ticks + 2)).map percentageOf := by
  have hlen : (fileSteps (trim data) none none none).length = 2 := by
    rw [fileSteps_length]; simp
  obtain ⟨es1, es2, es3, hv1, hv2, hp12, h | ⟨pre, s, post, e, -, hev, -⟩⟩ :=
    onData_events_files fs initializeProject createDirectories data w hi hd
  · obtain ⟨hev, hv3, hp3, hc⟩ := h
    refine ⟨?_, ?_, ?_⟩
    · rw [hev, ← writesOf_visible]
      simp only [visible_append, hv1, hv2, hv3, writesOf_append, Stage.work, writesOf_workOf,
        writesOf_shown]
      simp [fileSteps, FileStep.written, visible, writesOf, Event.isMarker, Event.isCreateFile,
        String.append_assoc, successLine]
    · rw [hc, hlen]
    · rw [hev]
      simp only [percentagesIn_append] at hp12 ⊢
      rw [hp12, hp3, hlen, ← List.map_append, Nat.add_comm _ 1, List.range'_append_1,
        Nat.add_comm 2]
      simp [percentagesIn, successLine]
  · exfalso
    have := hsucc (.createFile s.path s.content (some e)) (by rw [hev]; simp)
    simp [Event.isFailedWrite] at this

/-- C6: when the initializer calls the callback twice and succeeds, the directory builder
calls it eight times and succeeds, and no write fails, the listener's run writes exactly
`<name>/src/server.js` (the JavaScript template without a JWT line) and `<name>/readme.md`,
the callback has run `12 = TOTAL_STEPS` times (`completedSteps` counts its calls), the
percentages written are those of calls 1 to 12, and the last one is 100. -/
theorem onData_javascript_run (fs : FileWriter)
    (initializeProject createDirectories : String → Stage) (data : String) (w : World)
    (hi : (initializeProject (trim data)).failure = none)
    (hit : (initializeProject (trim data)).ticks = 2)
    (hd : (createDirectories (trim data)).failure = none)
    (hdt : (createDirectories (trim data)).ticks = 8)
    (hsucc : ∀ ev ∈ runEvents (onData fs initializeProject createDirectories data) w,
      ev.isFailedWrite = false) :
    writesOf (runEvents (onData fs initializeProject createDirectories data) w) =
      [.createFile (trim data ++ "/src/server.js") (boilerplateServerCode none none) none,
       .createFile (trim data ++ "/readme.md")
         "# Project created using express-app-generator" none] ∧
    (onData fs initializeProject createDirectories data w).2.completedSteps = 12 ∧
    TOTAL_STEPS = 2 + 8 + 2 ∧
    percentagesIn (runEvents (onData fs initializeProject createDirectories data) w) =
      (List.range' 1 12).map percentageOf ∧
    (percentagesIn (runEvents (onData fs initializeProject createDirectories data) w)).getLast? =
      some 100 := by
  obtain ⟨hw, hc, hp⟩ :=
    onData_run_ok fs initializeProject createDirectories data w hi hd hsucc
  rw [hit, hdt] at hc hp
  refine ⟨hw, hc, rfl, hp, ?_⟩
  rw [hp]
  simp [List.range', percentageOf_eq]

set_option maxRecDepth 100000 in
/-- C6 for the input line `demo`. -/
theorem onData_javascript_run_witness :
    writesOf (runEvents (onData succeedingWriter sampleInitializer sampleDirectories "demo\n")
      World.start) =
      [.createFile ("demo" ++ "/src/server.js") (boilerplateServerCode none none) none,
       .createFile ("demo" ++ "/readme.md") "# Project created using express-app-generator" none] ∧
    (onData succeedingWriter sampleInitializer sampleDirectories "demo\n"
      World.start).2.completedSteps = 12 ∧
    (percentagesIn (runEvents (onData succeedingWriter sampleInitializer sampleDirectories "demo\n")
      World.start)).getLast? = some 100 :=
  have h := onData_javascript_run succeedingWriter sampleInitializer sampleDirectories "demo\n"
    World.start rfl (by decide) rfl (by decide) (by decide!)
  ⟨h.1, h.2.1, h.2.2.2.2⟩


/-- C7 as stated fails: for the input line `api`, with stages that succeed, the listener's
run does not write `api/src/server.ts`, `api/tsconfig.json`, `api/src/configs/db.js` and
`api/src/models/userModel.js` and count 15 units of work. -/
theorem onData_option_flow_counterexample :
    ¬ ((∃ ev ∈ runEvents (onData succeedingWriter sampleInitializer sampleDirectories "api")
          World.start, ev.path? = some "api/src/server.ts") ∧
       (∃ ev ∈ runEvents (onData succeedingWriter sampleInitializer sampleDirectories "api")
          World.start, ev.path? = some "api/tsconfig.json") ∧
       (∃ ev ∈ runEvents (onData succeedingWriter sampleInitializer sampleDirectories "api")
          World.start, ev.path? = some "api/src/configs/db.js") ∧
       (∃ ev ∈ runEvents (onData succeedingWriter sampleInitializer sampleDirectories "api")
          World.start, ev.path? = some "api/src/models/userModel.js") ∧
       (onData succeedingWriter sampleInitializer sampleDirectories "api"
          World.start).2.completedSteps = 2 + 8 + 5) := by
  decide!


/-- C7, amended: the listener hands no options to `createFiles`, so its run (initializer with
2 callback calls, directory builder with 8, no failure) writes `<name>/src/server.js`, whose
text does not mention `jsonwebtoken`, and `<name>/readme.md`, for `2 + 8 + 2` units of work;
`createFiles` itself, called with TypeScript, JWT and MongoDB, writes `src/server.ts`,
`tsconfig.json`, `src/configs/db.js`, `src/models/userModel.js` and `readme.md` and calls the
callback 5 times, and the TypeScript text then has the line that brings `jsonwebtoken` in. -/
theorem onData_passes_no_options (fs : FileWriter)
    (initializeProject createDirectories : String → Stage) (data : String) (w : World)
    (hi : (initializeProject (trim data)).failure = none)
    (hit : (initializeProject (trim data)).ticks = 2)
    (hd : (createDirectories (trim data)).failure = none)
    (hdt : (createDirectories (trim data)).ticks = 8)
    (hsucc : ∀ ev ∈ runEvents (onData fs initializeProject createDirectories data) w,
      ev.isFailedWrite = false) :
    (writesOf (runEvents (onData fs initializeProject createDirectories data) w) =
      [.createFile (trim data ++ "/src/server.js") (boilerplateServerCode none none) none,
       .createFile (trim data ++ "/readme.md")
         "# Project created using express-app-generator" none] ∧
     mentions (boilerplateServerCode none none) "jsonwebtoken" = false ∧
     (onData fs initializeProject createDirectories data w).2.completedSteps = 2 + 8 + 2) ∧
    (∀ fs' w', (∀ ev ∈ runEvents (createFiles fs' (trim data) recordCall (some "TypeScript")
          (some "JWT") (some "MongoDB")) w', ev.isFailedWrite = false) →
      writesOf (runEvents (createFiles fs' (trim data) recordCall (some "TypeScript")
          (some "JWT") (some "MongoDB")) w') =
        [.createFile (trim data ++ "/src/server.ts") (tsBoilerplate (some "JWT")) none,
         .createFile (trim data ++ "/tsconfig.json") tsConfig none,
         .createFile (trim data ++ "/src/configs/db.js") (dbConfig (some "TypeScript")) none,
         .createFile (trim data ++ "/src/models/userModel.js")
           (userModel (some "TypeScript")) none,
         .createFile (trim data ++ "/readme.md")
           "# Project created using express-app-generator" none] ∧
      (runEvents (createFiles fs' (trim data) recordCall (some "TypeScript")
          (some "JWT") (some "MongoDB")) w').count .callbackRan = 5) ∧
    "import jwt from 'jsonwebtoken'; " ∈ textLines (tsBoilerplate (some "JWT")) := by
  obtain ⟨hw, hc, -⟩ := onData_run_ok fs initializeProject createDirectories data w hi hd hsucc
  refine ⟨⟨hw, by decide!, by rw [hc, hit, hdt]⟩, ?_, by decide⟩
  intro fs' w' hok
  have h := createFiles_recordCall_ok fs' (trim data) (some "TypeScript") (some "JWT")
    (some "MongoDB") w' hok
  rw [runEvents_of_emit _ _ _ _ h]
  refine ⟨?_, ?_⟩
  · rw [writesOf_append, writesOf_events]
    simp [fileSteps, FileStep.written, writesOf, Event.isCreateFile, String.append_assoc]
  · rw [List.count_append, count_callbackRan_events, fileSteps_length]
    simp

set_option maxRecDepth 100000 in
/-- C7, amended, for the input line `api`. -/
theorem onData_passes_no_options_witness :
    writesOf (runEvents (onData succeedingWriter sampleInitializer sampleDirectories "api")
      World.start) =
      [.createFile (trim "api" ++ "/src/server.js") (boilerplateServerCode none none) none,
       .createFile (trim "api" ++ "/readme.md")
         "# Project created using express-app-generator" none] ∧
    (onData succeedingWriter sampleInitializer sampleDirectories "api"
      World.start).2.completedSteps = 2 + 8 + 2 ∧
    (runEvents (createFiles succeedingWriter (trim "api") recordCall (some "TypeScript")
      (some "JWT") (some "MongoDB")) World.start).count .callbackRan = 5 :=
  have h := onData_passes_no_options succeedingWriter sampleInitializer sampleDirectories "api"
    World.start rfl (by decide) rfl (by decide) (by decide!)
  ⟨h.1.1, h.1.2.2, (h.2.1 succeedingWriter World.start (by decide)).2⟩

/-! ## The templates of the server entry file -/

theorem serverEntry_cases (installJsonwebtoken addDatabase : JsArg) :
    (installJsonwebtoken = some "JWT" ∧
      boilerplateServerCode installJsonwebtoken addDatabase =
        boilerplateServerCode (some "JWT") none ∧
      tsBoilerplate installJsonwebtoken = tsBoilerplate (some "JWT")) ∨
    (installJsonwebtoken ≠ some "JWT" ∧
      boilerplateServerCode installJsonwebtoken addDatabase = boilerplateServerCode none none ∧
      tsBoilerplate installJsonwebtoken = tsBoilerplate none) := by
  by_cases h : installJsonwebtoken = some "JWT"
  · left
    subst h
    exact ⟨rfl, rfl, rfl⟩
  · right
    refine ⟨h, ?_, ?_⟩
    · simp only [boilerplateServerCode, h, if_false]
      rfl
    · simp only [tsBoilerplate, h, if_false]
      rfl

set_option maxRecDepth 1000000 in
theorem codeLines_javascript_jwt :
    codeLines (boilerplateServerCode (some "JWT") none) = javascriptCode true := by decide!

set_option maxRecDepth 1000000 in
theorem codeLines_javascript_plain :
    codeLines (boilerplateServerCode none none) = javascriptCode false := by decide!

set_option maxRecDepth 1000000 in
theorem codeLines_typescript_jwt :
    codeLines (tsBoilerplate (some "JWT")) = typescriptCode true := by decide!

set_option maxRecDepth 1000000 in
theorem codeLines_typescript_plain :
    codeLines (tsBoilerplate none) = typescriptCode false := by decide!

set_option maxRecDepth 1000000 in
/-- C8 as stated fails: without the module lines and the head of the error handler (and
without comments and blank lines) the TypeScript text and the JavaScript text still differ;
the message of the listen call differs, and so does the export. -/
theorem serverEntry_difference_counterexample :
    codeBesideModulesAndTypes (tsBoilerplate none) ≠
      codeBesideModulesAndTypes (boilerplateServerCode none none) ∧
    (codeLines (tsBoilerplate none)).filter isListenMessage ≠
      (codeLines (boilerplateServerCode none none)).filter isListenMessage ∧
    (codeLines (tsBoilerplate none)).filter isExportLine ≠
      (codeLines (boilerplateServerCode none none)).filter isExportLine := by
  unfold codeBesideModulesAndTypes
  rw [codeLines_typescript_plain, codeLines_javascript_plain]
  decide

set_option maxRecDepth 1000000 in
/-- C8, amended: for every `installJsonwebtoken`, the code of the TypeScript text and the code
of the JavaScript text are the same list `commonCode` (the application and its port, the four
middlewares, the root route, the body of the error handler, the listen call) once the module
lines, the head of the error handler, the message of the listen call and the export are left
out; each text has exactly one line of each of these last three kinds, and they are the ones
given here. -/
theorem serverEntry_common_code (installJsonwebtoken addDatabase : JsArg) :
    sharedCode (tsBoilerplate installJsonwebtoken) =
      sharedCode (boilerplateServerCode installJsonwebtoken addDatabase) ∧
    sharedCode (boilerplateServerCode installJsonwebtoken addDatabase) = commonCode ∧
    (codeLines (boilerplateServerCode installJsonwebtoken addDatabase)).filter isErrorHandlerHead =
      ["app.use((err, req, res, next) => \x7b"] ∧
    (codeLines (tsBoilerplate installJsonwebtoken)).filter isErrorHandlerHead =
      ["app.use((err: Error, req: express.Request, res: express.Response, next: express.NextFunction) => \x7b"] ∧
    (codeLines (boilerplateServerCode installJsonwebtoken addDatabase)).filter isListenMessage =
      ["  console.log(`Server is running on http://localhost:$\x7bPORT\x7d/`);"] ∧
    (codeLines (tsBoilerplate installJsonwebtoken)).filter isListenMessage =
      ["  console.log(`Server running on http://localhost:$\x7bPORT\x7d/`);"] ∧
    (codeLines (boilerplateServerCode installJsonwebtoken addDatabase)).filter isExportLine =
      ["module.exports = app;"] ∧
    (codeLines (tsBoilerplate installJsonwebtoken)).filter isExportLine =
      ["export default app;"] := by
  unfold sharedCode
  rcases serverEntry_cases installJsonwebtoken addDatabase with ⟨-, hj, ht⟩ | ⟨-, hj, ht⟩
  · rw [hj, ht, codeLines_typescript_jwt, codeLines_javascript_jwt]
    decide
  · rw [hj, ht, codeLines_typescript_plain, codeLines_javascript_plain]
    decide


set_option maxRecDepth 1000000 in
/-- C9: for both templates and every `installJsonwebtoken` and `addDatabase`, the text
mentions `jsonwebtoken` exactly when `installJsonwebtoken` is `JWT`; it then has one occurrence
of `jwt`, on the line that brings the library in; the text does not depend on `addDatabase`
and mentions none of the names of the database connector. -/
theorem serverEntry_jwt_and_database (installJsonwebtoken addDatabase addDatabase' : JsArg) :
    ((mentions (boilerplateServerCode installJsonwebtoken addDatabase) "jsonwebtoken" = true ↔
        installJsonwebtoken = some "JWT") ∧
      (mentions (tsBoilerplate installJsonwebtoken) "jsonwebtoken" = true ↔
        installJsonwebtoken = some "JWT")) ∧
    (installJsonwebtoken = some "JWT" →
      occurrences (boilerplateServerCode installJsonwebtoken addDatabase) "jwt" = 1 ∧
      (textLines (boilerplateServerCode installJsonwebtoken addDatabase)).filter
        (mentions · "jwt") = ["const jwt = require('jsonwebtoken');"] ∧
      occurrences (tsBoilerplate installJsonwebtoken) "jwt" = 1 ∧
      (textLines (tsBoilerplate installJsonwebtoken)).filter
        (mentions · "jwt") = ["import jwt from 'jsonwebtoken'; "]) ∧
    boilerplateServerCode installJsonwebtoken addDatabase =
      boilerplateServerCode installJsonwebtoken addDatabase' ∧
    (∀ name ∈ connectorNames,
      mentions (boilerplateServerCode installJsonwebtoken addDatabase) name = false ∧
      mentions (tsBoilerplate installJsonwebtoken) name = false) := by
  rcases serverEntry_cases installJsonwebtoken addDatabase with ⟨h, hj, ht⟩ | ⟨h, hj, ht⟩
  · refine ⟨⟨?_, ?_⟩, ?_, rfl, ?_⟩
    · rw [hj]; exact ⟨fun _ => h, fun _ => by decide!⟩
    · rw [ht]; exact ⟨fun _ => h, fun _ => by decide!⟩
    · intro _
      rw [hj, ht]
      refine ⟨?_, ?_, ?_, ?_⟩ <;> decide!
    · rw [hj, ht]
      decide!
  · refine ⟨⟨?_, ?_⟩, fun h' => absurd h' h, rfl, ?_⟩
    · rw [hj]
      refine ⟨fun hm => absurd hm (by decide!), fun h' => absurd h' h⟩
    · rw [ht]
      refine ⟨fun hm => absurd hm (by decide!), fun h' => absurd h' h⟩
    · rw [hj, ht]
      decide!

/-- C9 for `JWT` with MongoDB. -/
theorem serverEntry_jwt_and_database_witness :
    occurrences (boilerplateServerCode (some "JWT") (some "MongoDB")) "jwt" = 1 ∧
    (textLines (boilerplateServerCode (some "JWT") (some "MongoDB"))).filter
      (mentions · "jwt") = ["const jwt = require('jsonwebtoken');"] ∧
    occurrences (tsBoilerplate (some "JWT")) "jwt" = 1 ∧
    (textLines (tsBoilerplate (some "JWT"))).filter
      (mentions · "jwt") = ["import jwt from 'jsonwebtoken'; "] :=
  (serverEntry_jwt_and_database (some "JWT") (some "MongoDB") none).2.1 rfl

end ExpressGen
